import Mathlib

/-
Verification of the classification-and-naming engine of PED_Sorter.py
(estimate-documentation sorter).  The Python code is shallowly embedded:
pure string manipulation is translated to executable Lean functions over
String and List Char; the external regular-expression engine (the Python
re module) is abstracted as an oracle carried in an environment record;
the external filesystem and OCR collaborators (first-page PDF extraction,
spreadsheet reading) are abstracted as functions of the file name carried
in the same environment record, as the spec declares them external
collaborators; Python exceptions are modelled with Except.
-/

namespace PEDSorter

/-! ### Python string primitives -/

/-- Python str.lower restricted to the alphabets the program handles
(ASCII Latin and Cyrillic, matching the allowed-character set of the
validator). -/
def pyLowerChar (c : Char) : Char :=
  if 'A' ≤ c ∧ c ≤ 'Z' then Char.ofNat (c.toNat + 32)
  else if 0x410 ≤ c.toNat ∧ c.toNat ≤ 0x42F then Char.ofNat (c.toNat + 0x20)
  else if c.toNat = 0x401 then Char.ofNat 0x451
  else c

def pyLower (s : String) : String := String.mk (s.data.map pyLowerChar)

def isPySpace (c : Char) : Bool :=
  c = ' ' || c = '\t' || c = '\n' || c = '\r' || c = Char.ofNat 0x0b || c = Char.ofNat 0x0c

/-- Python str.strip with no argument: drop whitespace at both ends. -/
def pyStrip (s : String) : String :=
  String.mk (((s.data.dropWhile isPySpace).reverse.dropWhile isPySpace).reverse)

/-- Auxiliary: does the first list occur as a contiguous sublist of the
second. -/
def listContainsSub (n : List Char) : List Char → Bool
  | [] => n.isEmpty
  | c :: rest => n.isPrefixOf (c :: rest) || listContainsSub n rest

/-- Python substring containment, the `in` operator on str.  The empty
needle is contained in everything. -/
def pyContains (needle hay : String) : Bool := listContainsSub needle.data hay.data

def pyStartsWith (pre s : String) : Bool := pre.data.isPrefixOf s.data

def pyEndsWith (suf s : String) : Bool := suf.data.isSuffixOf s.data

/-- Python str slicing from the start, s[:n]. -/
def pyTake (s : String) (n : Nat) : String := String.mk (s.data.take n)

/-- Core of Python str.split(sep) for a one-character separator: scan
left to right, cut at each occurrence, keep empty pieces. -/
def pySplit1 (a : Char) : List Char → List Char → List (List Char)
  | [], acc => [acc.reverse]
  | c :: rest, acc =>
    if c = a then acc.reverse :: pySplit1 a rest []
    else pySplit1 a rest (c :: acc)

/-- Core of Python str.split(sep) for a two-character separator:
non-overlapping left-to-right cuts. -/
def pySplit2 (a b : Char) : List Char → List Char → List (List Char)
  | [], acc => [acc.reverse]
  | [c], acc => [(c :: acc).reverse]
  | c :: c2 :: rest, acc =>
    if c = a ∧ c2 = b then acc.reverse :: pySplit2 a b rest []
    else pySplit2 a b (c2 :: rest) (c :: acc)

/-- Python str.split(sep).  Every separator the program splits on is one
or two characters long, so only these two arities are embedded. -/
def pySplit (sep s : String) : List String :=
  match sep.data with
  | [a] => (pySplit1 a s.data []).map String.mk
  | [a, b] => (pySplit2 a b s.data []).map String.mk
  | _ => [s]

/-- Separator class of the filename tokenizer: underscore, hyphen, dot,
space (the character class of the splitting pattern in the filename
phase). -/
def isSepCh (c : Char) : Bool := c = '_' || c = '-' || c = '.' || c = ' '

/-- Splitting on maximal runs of separator characters, the semantics of
re.split over a one-or-more character-class pattern: empty pieces are
kept at both ends but not between consecutive separators. -/
def reSplitRuns : List Char → List Char → List (List Char)
  | [], acc => [acc.reverse]
  | c :: rest, acc =>
    if isSepCh c then
      match rest with
      | [] => [acc.reverse, []]
      | c2 :: rest2 =>
        if isSepCh c2 then reSplitRuns (c2 :: rest2) acc
        else acc.reverse :: reSplitRuns rest2 [c2]
    else reSplitRuns rest (c :: acc)

/-- os.path.splitext for a bare file name: split at the last dot, unless
every character before that dot is itself a dot (hidden-file rule). -/
def splitext (s : String) : String × String :=
  let cs := s.data
  match cs.reverse.findIdx? (fun c => c = '.') with
  | none => (s, "")
  | some k =>
    let i := cs.length - 1 - k
    if (cs.take i).all (fun c => c = '.') then (s, "")
    else (String.mk (cs.take i), String.mk (cs.drop i))

/-- pathlib Path.suffix of a bare file name: the part from the last dot,
but empty when the dot is the first or the last character. -/
def pathSuffix (s : String) : String :=
  let cs := s.data
  match cs.reverse.findIdx? (fun c => c = '.') with
  | none => ""
  | some k =>
    let i := cs.length - 1 - k
    if 0 < i ∧ i < cs.length - 1 then String.mk (cs.drop i) else ""

/-- Python re semantics of a fully anchored pattern (a leading caret and
a trailing dollar, no MULTILINE): the dollar also matches just before one
final newline. -/
def reSearchAnchored (core : String → Bool) (s : String) : Bool :=
  core s || (pyEndsWith "\n" s && core (String.mk s.data.dropLast))

/-! ### Data model -/

/-- One catalog entry of the tag dictionary: display name, filename tags,
content tags, naming mask (the values of one type id in the loaded tag
data). -/
structure TypeData where
  type : String
  name_tags : List String
  internal_tags : List String
  mask : String
  deriving DecidableEq, Repr

/-- The ordered tag catalog: an insertion-ordered mapping from type id to
its data, as the loaded JSON dictionary. -/
abbrev TagsData := List (String × TypeData)

/-- The default catalog written by the tag manager when no tag file
exists (the default_tags value of the loader). -/
def default_tags : TagsData :=
  [("1", { type := "файл с тэгами не обнаружен", name_tags := [], internal_tags := [], mask := "" })]

/-- External collaborators of the engine, abstracted per the spec:
compileOk and research model the regular-expression engine (research is
the truth value of a case-insensitive search of a pattern in a text,
consulted only when the pattern compiles); pdfExtract models first-page
OCR extraction keyed by file name (already lower-cased, empty on
failure); excelRead models reading the first visible sheet keyed by file
name (rows already joined to lower-cased strings, none on failure). -/
structure Env where
  compileOk : String → Bool
  research : String → String → Bool
  pdfExtract : String → String
  excelRead : String → Option (List String)

/-- Caller configuration: the search-inside-content checkbox and the
original-name comment option with its truncation length. -/
structure CommentCfg where
  enabled : Bool
  exLen : Nat
  deriving DecidableEq, Repr

structure Cfg where
  searchInFile : Bool
  comment : CommentCfg
  deriving DecidableEq, Repr

/-- One classification record produced per discovered file (the value
stored in the filenames dictionary). -/
structure FileRecord where
  type : String
  new_name : String
  mask : String
  extension : String
  estimate_number : String
  deriving DecidableEq, Repr

/-- The two catch-all display types exempted from short-circuiting. -/
def CATCH_ALLS : List String := ["Подтверждающие документы", "Расчеты на прочие затраты"]

def UNKNOWN : String := "?"
def DEFAULT_VERSION : String := "БАЗ"
def DEFAULT_VERSION_NUMBER : String := ""

/-- Subtype codenames of the other-expenses family, keyed by display
type. -/
def TYPES_7_AND_THEIR_CODENAMES : List (String × String) :=
  [("Расчеты на прочие затраты", "?"),
   ("Перевозка", "Перевозка"),
   ("Командировочные расходы", "Командировочные"),
   ("Перебазировка", "Перебазировка"),
   ("Затраты на охрану труда", "ОхранаТруда"),
   ("Затраты на проведение пусконаладочных работ (ПНР)", "ПНР"),
   ("Устройство дорог", "УстройствоДорог"),
   ("Дополнительные затраты при производстве работ в зимнее время (ЗУ)", "ЗУ"),
   ("Плата за негативное воздействие на окружающую среду (НВОС)", "НВОС"),
   ("Транспортировка", "Транспортировка"),
   ("Плавсредства", "Плавсредства"),
   ("Затраты на мониторинг компонентов окружающей среды (ПЭМ)", "ПЭМ")]

/-- Subtype codenames of the supporting-documents family, keyed by
display type (the source misspells CODENAMSE; the name is kept). -/
def TYPES_8_AND_THEIR_CODENAMSE : List (String × String) :=
  [("Подтверждающие документы", "?"),
   ("Ведомость объемов работ", "ВОР"),
   ("Дефектная ведомость", "ДВ"),
   ("Коммерческое предложение", "КП"),
   ("Транспортная схема", "ТС"),
   ("Обоснование к расчету прочих затрат", "ОбоснованиеПрочих"),
   ("Конъюнктурный анализ", "КА")]

/-! ### Content tag checks -/

/-- check_tags_in_pdf: empty text never matches; otherwise some tag
matches as a pattern, or, when the pattern does not compile, as a literal
lower-cased substring. -/
def check_tags_in_pdf (env : Env) (text : String) (tags : List String) : Bool :=
  if text = "" then false
  else tags.any (fun tag =>
    if env.compileOk tag then env.research tag text
    else pyContains (pyLower tag) text)

/-- check_tags_in_excel: missing data never matches; otherwise some row
contains some tag, with the same pattern-or-literal fallback. -/
def check_tags_in_excel (env : Env) (file_data : Option (List String)) (tags : List String) : Bool :=
  match file_data with
  | none => false
  | some rows => rows.any (fun row => tags.any (fun tag =>
      if env.compileOk tag then env.research tag row
      else pyContains (pyLower tag) row))

/-! ### TypeClassifier: filename phase -/

/-- The regex metacharacters whose presence switches a filename tag from
literal-token matching to pattern matching. -/
def REGEX_SPECIALS : List Char :=
  ['.', '*', '+', '?', '^', '$', '[', ']', Char.ofNat 0x7b, Char.ofNat 0x7d, '(', ')', '|', '\\']

def hasRegexSpecials (tag : String) : Bool := REGEX_SPECIALS.any (fun c => tag.data.contains c)

/-- The token split of the lower-cased file name on underscore, hyphen,
dot, space runs. -/
def fileParts (filename : String) : List String :=
  (reSplitRuns (pyLower filename).data []).map String.mk

/-- Whether one name tag matches the file name: the pattern path when the
tag holds metacharacters (and compiles), else the literal token path. -/
def name_tag_match (env : Env) (filename : String) (parts : List String) (tag : String) : Bool :=
  if hasRegexSpecials tag then env.compileOk tag && env.research tag filename
  else parts.contains (pyLower tag)

/-- Inner loop of the filename phase over the tags of one type: threads
the provisional display type and mask, stops (found = true) at the first
match of a non-catch-all type, continues after a catch-all match.  The
per-tag condition (pattern path when the tag holds metacharacters and
compiles, literal token path otherwise, a non-compiling pattern treated
as no match) is the factored name_tag_match. -/
def name_tag_loop (env : Env) (filename : String) (parts : List String) (td : TypeData) :
    List String → String → String → String × String × Bool
  | [], typ, mask => (typ, mask, false)
  | tag :: rest, typ, mask =>
    if name_tag_match env filename parts tag then
      if CATCH_ALLS.contains td.type then name_tag_loop env filename parts td rest td.type td.mask
      else (td.type, td.mask, true)
    else name_tag_loop env filename parts td rest typ mask

/-- Outer loop of the filename phase over the catalog: threads the state
and records, per Python loop-variable semantics, the id of the catalog
entry the loop last inspected. -/
def name_phase_loop (env : Env) (filename : String) (parts : List String) :
    List (String × TypeData) → String → String → Option String →
    String × String × Bool × Option String
  | [], typ, mask, tid => (typ, mask, false, tid)
  | (tpid, td) :: rest, typ, mask, _ =>
    match name_tag_loop env filename parts td td.name_tags typ mask with
    | (typ2, mask2, true) => (typ2, mask2, true, some tpid)
    | (typ2, mask2, false) => name_phase_loop env filename parts rest typ2 mask2 (some tpid)

/-- The filename phase, started from the unknown sentinels.  Returns
(type, mask, found-by-name, final loop type id). -/
def namePhase (env : Env) (tags : TagsData) (filename : String) :
    String × String × Bool × Option String :=
  name_phase_loop env filename (fileParts filename) tags UNKNOWN UNKNOWN none

/-! ### TypeClassifier: content phase -/

/-- The presence test of the content phase for one catalog entry: PDF
files are consulted only when no spreadsheet sibling shares their stem;
spreadsheets are read; all other extensions never match. -/
def content_presence (env : Env) (files : List String) (filename ext : String) (td : TypeData) : Bool :=
  if ext = ".pdf" then
    if !files.contains ((splitext filename).1 ++ ".xls")
        && !files.contains ((splitext filename).1 ++ ".xlsx") then
      check_tags_in_pdf env (env.pdfExtract filename) td.internal_tags
    else false
  else if ext = ".xls" || ext = ".xlsx" then
    check_tags_in_excel env (env.excelRead filename) td.internal_tags
  else false

/-- The content phase loop: on a match it records type and mask and stops
unless the type is a catch-all; the loop variable type id is rebound at
every inspected entry. -/
def content_phase_loop (env : Env) (files : List String) (filename ext : String) :
    List (String × TypeData) → String → String → Option String →
    String × String × Option String
  | [], typ, mask, tid => (typ, mask, tid)
  | (tpid, td) :: rest, typ, mask, _ =>
    if content_presence env files filename ext td then
      if CATCH_ALLS.contains td.type then
        content_phase_loop env files filename ext rest td.type td.mask (some tpid)
      else (td.type, td.mask, some tpid)
    else content_phase_loop env files filename ext rest typ mask (some tpid)

/-- Full classification of one file: the filename phase, then the content
phase only when the filename phase found no non-exempt match, content
search is on, and the provisional type is not a catch-all. -/
def classify (env : Env) (tags : TagsData) (cfg : Cfg) (files : List String)
    (filename ext : String) : String × String × Option String :=
  match namePhase env tags filename with
  | (typ, mask, found, tid) =>
    if !found && cfg.searchInFile && !CATCH_ALLS.contains typ then
      content_phase_loop env files filename ext tags typ mask tid
    else (typ, mask, tid)

/-! ### NameSynthesizer -/

/-- The optional original-name comment suffix. -/
def create_comment (c : CommentCfg) (filename : String) : String :=
  if c.enabled then "-(ex " ++ pyTake filename (min c.exLen filename.length) ++ "...)" else ""

/-- A one-or-two ASCII-digit group, one D-group of the estimate-number
patterns. -/
def isDDpart (s : String) : Bool :=
  decide (1 ≤ s.length) && decide (s.length ≤ 2) && s.data.all Char.isDigit

/-- The anchored estimate-number pattern core per estimate type id:
two or three dash-separated digit groups for id 1, one or two for id 2,
exactly one for id 3. -/
def numberCore (type_id : String) (s : String) : Bool :=
  let parts := pySplit "-" s
  if type_id = "1" then (decide (parts.length = 2) || decide (parts.length = 3)) && parts.all isDDpart
  else if type_id = "2" then (decide (parts.length = 1) || decide (parts.length = 2)) && parts.all isDDpart
  else decide (parts.length = 1) && parts.all isDDpart

/-- The substring the scanner extracts from one matched content line: the
piece after the last number-sign marker, trying the sign itself, then the
two-letter OCR misread, then the single letter, then trimmed. -/
def candExtract (row : String) : String :=
  if pyContains "№" row then pyStrip ((pySplit "№" row).getLastD "")
  else if pyContains "ne" row then pyStrip ((pySplit "ne" row).getLastD "")
  else pyStrip ((pySplit "n" row).getLastD "")

/-- Inner scan of one content line over the (lower-cased) tags: a
matching tag computes the candidate; an accepted candidate is returned as
the found estimate and stops; a rejected candidate is kept and the
remaining tags are tried; an uncompilable pattern raises. -/
def scan_row_tags (env : Env) (row : String) (accept : String → Bool) :
    List String → String → Except String (Option String × String)
  | [], candidate => .ok (none, candidate)
  | tag :: rest, candidate =>
    if env.compileOk tag then
      if env.research tag row then
        let c := candExtract row
        if accept c then .ok (some c, c)
        else scan_row_tags env row accept rest c
      else scan_row_tags env row accept rest candidate
    else .error "re.error: bad internal tag pattern"

/-- Outer scan over the content lines: after each line the loop stops as
soon as the candidate is non-empty, whether or not it was accepted. -/
def estimate_scan (env : Env) (tags : List String) (accept : String → Bool) :
    List String → String → String → Except String (String × String)
  | [], estimate, candidate => .ok (estimate, candidate)
  | row :: rest, estimate, candidate =>
    match scan_row_tags env row accept tags candidate with
    | .error e => .error e
    | .ok (found?, cand') =>
      let estimate' := match found? with | some c => c | none => estimate
      if cand' ≠ "" then .ok (estimate', cand')
      else estimate_scan env tags accept rest estimate' cand'

/-- A Python value passed as the cached file data argument: None, an OCR
text string, or a spreadsheet grid. -/
inductive PyData where
  | none0
  | str0 (s : String)
  | grid (g : List String)
  deriving DecidableEq, Repr

/-- create_name_for_123_local_object_summary_estimates: builds the
estimate-style base name, reading the file when no cached data was
passed.  Errors model the Python exceptions the function can raise: a
NameError for an id outside 1-3, a KeyError for an id missing from the
catalog, a TypeError when the spreadsheet read produced no data and the
code takes the length of None, and AttributeErrors on mismatched data
kinds (unreachable from the traversal). -/
def create_name_for_123_local_object_summary_estimates
    (env : Env) (ccfg : CommentCfg) (tags : TagsData)
    (type_id filename : String) (file_data : PyData) :
    Except String (Option (String × String)) :=
  match (if type_id = "1" then some ("??-??-??", "ЛС")
         else if type_id = "2" then some ("??-??", "ОС")
         else if type_id = "3" then some ("??", "ССР") else none) with
  | none => .error "NameError: ESTIMATE_NUMBER_UNKNOWN is not defined"
  | some (unknownNumber, const) =>
    match tags.lookup type_id with
    | none => .error "KeyError: type_id"
    | some td =>
      let loweredTags := td.internal_tags.map pyLower
      let accept := reSearchAnchored (numberCore type_id)
      let build : List String → Except String (Option (String × String)) := fun data_lines =>
        match estimate_scan env loweredTags accept data_lines unknownNumber "" with
        | .error e => .error e
        | .ok (estimate_number, candidate) =>
          .ok (some (const ++ "-" ++ estimate_number ++ "-" ++ DEFAULT_VERSION
                      ++ DEFAULT_VERSION_NUMBER ++ create_comment ccfg filename, candidate))
      if pyEndsWith ".xls" filename || pyEndsWith ".xlsx" filename then
        match file_data with
        | .str0 _ => .error "AttributeError: str has no iloc"
        | .none0 =>
          match env.excelRead filename with
          | none => .error "TypeError: object of type NoneType has no len"
          | some rows => build (rows.take (min 20 rows.length))
        | .grid rows => build (rows.take (min 20 rows.length))
      else if pyEndsWith ".pdf" filename then
        match file_data with
        | .grid _ => .error "AttributeError: DataFrame has no split"
        | .none0 => build ((pySplit "\n" (env.pdfExtract filename)).take 20)
        | .str0 s => build ((pySplit "\n" s).take 20)
      else .ok none

/-- create_name_for_4_register_of_estimates. -/
def create_name_for_4_register_of_estimates (ccfg : CommentCfg) (filename : String) : String :=
  "СРСД" ++ "-" ++ DEFAULT_VERSION ++ DEFAULT_VERSION_NUMBER ++ create_comment ccfg filename

/-- create_name_for_5_specific_types_of_costs. -/
def create_name_for_5_specific_types_of_costs (ccfg : CommentCfg) (filename : String) : String :=
  "СРОВЗ" ++ "-" ++ DEFAULT_VERSION ++ DEFAULT_VERSION_NUMBER ++ create_comment ccfg filename

/-- create_name_for_6_MTR_cost_change_table. -/
def create_name_for_6_MTR_cost_change_table (ccfg : CommentCfg) (filename : String) : String :=
  "ФОРМА1.3" ++ "-" ++ DEFAULT_VERSION ++ DEFAULT_VERSION_NUMBER ++ create_comment ccfg filename

/-- create_name_for_7_other_expenses: none models the KeyError on a
display type outside the codename table (the call site guards the key). -/
def create_name_for_7_other_expenses (ccfg : CommentCfg) (filename typ : String) : Option String :=
  (TYPES_7_AND_THEIR_CODENAMES.lookup typ).map (fun code =>
    "ПРОЧ" ++ "-" ++ code ++ "-" ++ DEFAULT_VERSION ++ DEFAULT_VERSION_NUMBER
      ++ create_comment ccfg filename)

/-- create_name_for_8_supporting_documents: increments the running
supporting-documents counter, then builds the name; the branch comparing
the codename with the full display string is kept as in the source. -/
def create_name_for_8_supporting_documents (ccfg : CommentCfg) (counter : Nat)
    (filename typ : String) : Option (String × Nat) :=
  (TYPES_8_AND_THEIR_CODENAMSE.lookup typ).map (fun code =>
    let counter' := counter + 1
    if code = "Обоснование к расчету прочих затрат" then
      ("ПОДТВ" ++ "-" ++ code ++ "-ТИППРОЧ-" ++ toString counter' ++ "-" ++ DEFAULT_VERSION
        ++ DEFAULT_VERSION_NUMBER ++ create_comment ccfg filename, counter')
    else
      ("ПОДТВ" ++ "-" ++ code ++ "-" ++ toString counter' ++ "-" ++ DEFAULT_VERSION
        ++ DEFAULT_VERSION_NUMBER ++ create_comment ccfg filename, counter'))

/-! ### BatchCoordinator: per-file step -/

/-- The estimate-type dispatch of the traversal (the branch keyed on the
final loop type id): returns the proposed base name, the estimate number,
and the possibly updated new_name_result variable, which persists across
files; subscripting an unbound or None result raises. -/
def branch123 (env : Env) (ccfg : CommentCfg) (tags : TagsData) (files : List String)
    (filename ext : String) (tid? : Option String)
    (nnr : Option (Option (String × String))) :
    Except String (String × String × Option (Option (String × String))) :=
  match tid? with
  | none => .error "NameError: name type_id is not defined"
  | some tid =>
    if tid = "1" || tid = "2" || tid = "3" then
      let stem := (splitext filename).1
      let step : Except String (Option (Option (String × String))) :=
        if ext = ".pdf" then
          if !files.contains (stem ++ ".xls") && !files.contains (stem ++ ".xlsx") then
            (create_name_for_123_local_object_summary_estimates env ccfg tags tid filename .none0).map some
          else .ok nnr
        else if ext = ".xls" || ext = ".xlsx" then
          (create_name_for_123_local_object_summary_estimates env ccfg tags tid filename .none0).map some
        else .ok nnr
      match step with
      | .error e => .error e
      | .ok nnr' =>
        if ext = ".xls" || ext = ".xlsx" || ext = ".pdf" then
          match nnr' with
          | none => .error "NameError: name new_name_result is not defined"
          | some none => .error "TypeError: NoneType is not subscriptable"
          | some (some r) => .ok (r.1, r.2, nnr')
        else .ok (UNKNOWN, "", nnr')
    else .ok (UNKNOWN, "", nnr)

/-- The display-type dispatch of the traversal: the sequential if
statements keyed on the classified display type, possibly overwriting the
base name and advancing the supporting-documents counter. -/
def dispatch_name (ccfg : CommentCfg) (filename typ nm0 : String) (counter : Nat) :
    String × Nat :=
  let nm1 := if typ = "Сводный реестр сметной документации" then
      create_name_for_4_register_of_estimates ccfg filename else nm0
  let nm2 := if typ = "Сметные расчеты на отдельные виды затрат" then
      create_name_for_5_specific_types_of_costs ccfg filename else nm1
  let nm3 := if typ = "Сравнительная таблица изменения стоимости МТР по договору подряда (Форма 1.3)" then
      create_name_for_6_MTR_cost_change_table ccfg filename else nm2
  let nm4 := match create_name_for_7_other_expenses ccfg filename typ with
    | some nm => nm
    | none => nm3
  match create_name_for_8_supporting_documents ccfg counter filename typ with
  | some (nm, c') => (nm, c')
  | none => (nm4, counter)

/-- Processing of one listed file inside the traversal: classify, run the
estimate branch, run the display dispatch, assemble the record.  The
extracted-content caches are dropped because extraction is modelled as a
pure function of the file name, which makes at-most-once caching
semantically invisible. -/
def processFile (env : Env) (tags : TagsData) (cfg : Cfg) (files : List String)
    (filename : String) (nnr : Option (Option (String × String))) (counter : Nat) :
    Except String (FileRecord × Option (Option (String × String)) × Nat) :=
  match classify env tags cfg files filename (pyLower (pathSuffix filename)) with
  | (typ, mask, tid) =>
    match branch123 env cfg.comment tags files filename (pyLower (pathSuffix filename)) tid nnr with
    | .error e => .error e
    | .ok (nm0, est, nnr') =>
      match dispatch_name cfg.comment filename typ nm0 counter with
      | (nm, counter') =>
        .ok ({ type := typ, new_name := nm, mask := mask,
               extension := pyLower (pathSuffix filename),
               estimate_number := est }, nnr', counter')

/-! ### BatchCoordinator: traversal, propagation, table -/

/-- Insertion into the ordered filenames dictionary: replace in place
when the key exists, append otherwise. -/
def dictInsert (recs : List (String × FileRecord)) (fn : String) (r : FileRecord) :
    List (String × FileRecord) :=
  if (recs.find? (fun p => p.1 = fn)).isSome then
    recs.map (fun p => if p.1 = fn then (fn, r) else p)
  else recs ++ [(fn, r)]

/-- The traversal loop over one directory listing: lock artifacts are
skipped; any uncaught Python exception aborts the whole loop. -/
def traverse_loop (env : Env) (tags : TagsData) (cfg : Cfg) (files : List String) :
    List String → List (String × FileRecord) → Nat → Option (Option (String × String)) →
    Except String (List (String × FileRecord) × Nat)
  | [], recs, counter, _ => .ok (recs, counter)
  | fn :: rest, recs, counter, nnr =>
    if pyStartsWith "~$" fn then traverse_loop env tags cfg files rest recs counter nnr
    else
      match processFile env tags cfg files fn nnr counter with
      | .error e => .error e
      | .ok (r, nnr', counter') =>
        traverse_loop env tags cfg files rest (dictInsert recs fn r) counter' nnr'

/-- traverse_directory restricted to one directory listing, starting from
a given supporting-documents counter. -/
def traverse_directory (env : Env) (tags : TagsData) (cfg : Cfg) (files : List String)
    (counter : Nat) : Except String (List (String × FileRecord) × Nat) :=
  traverse_loop env tags cfg files files [] counter none

def SPREAD_EXTS : List String := [".xls", ".xlsx"]

/-- The four fields duplicate propagation copies. -/
def fields4 (r : FileRecord) : String × String × String × String :=
  (r.type, r.new_name, r.mask, r.estimate_number)

def copy_from (src r : FileRecord) : FileRecord :=
  { r with new_name := src.new_name, type := src.type, mask := src.mask,
           estimate_number := src.estimate_number }

/-- One propagation pass from a spreadsheet record: overwrite every
record of the same stem under a different file name. -/
def propagate_from (fn : String) (src : FileRecord) (recs : List (String × FileRecord)) :
    List (String × FileRecord) :=
  recs.map (fun p =>
    (p.1, if (splitext p.1).1 = (splitext fn).1 ∧ p.1 ≠ fn then copy_from src p.2 else p.2))

/-- The propagation loop over the dictionary keys, reading each value
live. -/
def share_loop : List String → List (String × FileRecord) → List (String × FileRecord)
  | [], recs => recs
  | fn :: rest, recs =>
    match recs.find? (fun p => p.1 = fn) with
    | none => share_loop rest recs
    | some p =>
      if SPREAD_EXTS.contains p.2.extension then share_loop rest (propagate_from fn p.2 recs)
      else share_loop rest recs

/-- share_info_from_xls_to_duplicates. -/
def share_info_from_xls_to_duplicates (recs : List (String × FileRecord)) :
    List (String × FileRecord) :=
  share_loop (recs.map Prod.fst) recs

/-- One full search run as triggered by the search button: the traversal,
then duplicate propagation, then table population, which resets the
supporting-documents counter to zero. -/
def run_search (env : Env) (tags : TagsData) (cfg : Cfg) (files : List String)
    (counter : Nat) : Except String (List (String × FileRecord) × Nat) :=
  match traverse_directory env tags cfg files counter with
  | .error e => .error e
  | .ok (recs, _) => .ok (share_info_from_xls_to_duplicates recs, 0)

/-! ### NameValidator -/

/-- One table row as the validator sees it: the original file name in
column zero and the candidate new name in column three. -/
structure TableRow where
  original : String
  candidate : String
  deriving DecidableEq, Repr

/-- Allowed characters of the validator pattern: Latin letters, Cyrillic
letters with both yo forms, ASCII digits, underscore, hyphen, dot,
parentheses, space. -/
def allowedNameChar (c : Char) : Bool :=
  (decide ('a' ≤ c) && decide (c ≤ 'z')) || (decide ('A' ≤ c) && decide (c ≤ 'Z'))
    || (decide (0x430 ≤ c.toNat) && decide (c.toNat ≤ 0x44F))
    || (decide (0x410 ≤ c.toNat) && decide (c.toNat ≤ 0x42F))
    || decide (c.toNat = 0x451) || decide (c.toNat = 0x401)
    || c.isDigit || c = '_' || c = '-' || c = '.' || c = '(' || c = ')' || c = ' '

/-- The anchored character-class check of the validator, with the
trailing-newline tolerance of the Python dollar anchor. -/
def charset_match (s : String) : Bool :=
  reSearchAnchored (fun t => !t.data.isEmpty && t.data.all allowedNameChar) s

/-- is_name_valid: the candidate is checked against blankness, the
unknown marker, collision with any other row, the character class, the
original extension, and blankness of the extension-stripped base. -/
def is_name_valid (table : List TableRow) (current : Nat) (new_name : String) : Bool :=
  if pyStrip new_name = "" then false
  else if pyContains "?" new_name then false
  else if table.enum.any (fun p => p.1 ≠ current && p.2.candidate = new_name) then false
  else if !charset_match new_name then false
  else
    match table.get? current with
    | none => false
    | some row =>
      let original_extension := pyLower (splitext row.original).2
      let new_extension := pyLower (splitext new_name).2
      if new_extension ≠ original_extension then false
      else
        let new_name_without_ext := (splitext new_name).1
        if pyStrip new_name_without_ext = "" then false
        else if new_name_without_ext = "." ∨ new_name_without_ext = "" then false
        else true

/-! ### Batch file operation (decision per row) -/

/-- The decision the batch operation takes for one table row, with the
filesystem side abstracted away: opOn carries the exact target name an
attempted copy or rename would use. -/
inductive RowOutcome where
  | skippedRow
  | errorRow
  | opOn (target : String)
  deriving DecidableEq, Repr

/-- Per-row decision of rename_files: an unchecked row is skipped unless
the copy-undefined option substitutes the original name; the chosen name
is validated, an invalid one counts as an error, and only a valid one
reaches the file operation under exactly that name. -/
def rename_files_row (copyUndefined : Bool) (table : List TableRow) (row : Nat)
    (checked : Bool) : RowOutcome :=
  if !checked && !copyUndefined then .skippedRow
  else
    match table.get? row with
    | none => .errorRow
    | some rd =>
      let new_name := if checked then rd.candidate else rd.original
      if !is_name_valid table row new_name then .errorRow
      else .opOn new_name

/-! ### Concrete fixtures

The counterexamples below use only literal (metacharacter-free) tags, for
which the Python engine answers a case-insensitive search exactly by
lower-cased substring containment; litEnv instantiates the oracle with
that behavior, so each concrete run below reproduces the Python run on
the same inputs. -/

def litEnv (xl : String → Option (List String)) : Env :=
  { compileOk := fun _ => true,
    research := fun pat text => pyContains (pyLower pat) (pyLower text),
    pdfExtract := fun _ => "",
    excelRead := xl }

def ccOff : CommentCfg := { enabled := false, exLen := 15 }
def cfgOff : Cfg := { searchInFile := false, comment := ccOff }
def cfgOn : Cfg := { searchInFile := true, comment := ccOff }

def envEmptyGrid : Env := litEnv (fun _ => some [])
def envNoGrid : Env := litEnv (fun _ => none)

/-- A one-type catalog with a literal estimate tag, for files named by
the local-estimate marker. -/
def c1tags : TagsData :=
  [("1", { type := "Локальный сметный расчет", name_tags := ["лс"], internal_tags := [], mask := "m1" })]

/-- A one-type catalog whose estimate content tag is a literal word. -/
def c2tags : TagsData :=
  [("1", { type := "Локальный сметный расчет", name_tags := [], internal_tags := ["смета"], mask := "" })]

/-- A two-type catalog with distinct literal filename tags. -/
def c4tags : TagsData :=
  [("21", { type := "Тип А", name_tags := ["foo"], internal_tags := [], mask := "mA" }),
   ("22", { type := "Тип Б", name_tags := ["bar"], internal_tags := [], mask := "mB" })]

/-- A catalog whose first entry is a catch-all matched by filename and
whose second entry is a non-exempt type matched by content. -/
def c5tags : TagsData :=
  [("8", { type := "Подтверждающие документы", name_tags := ["док"], internal_tags := [], mask := "m8" }),
   ("4", { type := "Сводный реестр сметной документации", name_tags := [], internal_tags := ["реестр"], mask := "m4" })]

def envReestr : Env := litEnv (fun _ => some ["реестр"])

def rA : FileRecord :=
  { type := "T1", new_name := "N1", mask := "M1", extension := ".xls", estimate_number := "e1" }

def rB : FileRecord :=
  { type := "T2", new_name := "N2", mask := "M2", extension := ".pdf", estimate_number := "e2" }

/-! ### Predicates used to state the claims -/

/-- Modelled from the amended wording of the estimate-number claim: scan
the lines in order; a line without a tag hit is skipped; the first line
with a tag hit whose extracted candidate is non-empty stops the scan, and
the estimate is that candidate when the pattern accepts it, the unknown
placeholder otherwise; a tag-hit line with an empty candidate is skipped.
The second component is the stopping candidate, empty when no line
stops the scan. -/
def estimate_scan_spec (tagHit : String → Bool) (accept : String → Bool)
    (unknownNumber : String) : List String → String × String
  | [] => (unknownNumber, "")
  | row :: rest =>
    if tagHit row then
      let c := candExtract row
      if c = "" then estimate_scan_spec tagHit accept unknownNumber rest
      else ((if accept c then c else unknownNumber), c)
    else estimate_scan_spec tagHit accept unknownNumber rest

/-- The collision test of the validator: some other row proposes the very
same candidate name. -/
def collisionExists (table : List TableRow) (current : Nat) (nn : String) : Bool :=
  table.enum.any (fun p => p.1 ≠ current && p.2.candidate = nn)

/-- Propagation achieved for the key fn: every spreadsheet record stored
under fn agrees, on the four propagated fields, with every record of the
same stem stored under a different name. -/
def DoneAt (recs : List (String × FileRecord)) (fn : String) : Prop :=
  ∀ r, (fn, r) ∈ recs → SPREAD_EXTS.contains r.extension = true →
    ∀ fn2 r2, (fn2, r2) ∈ recs → (splitext fn2).1 = (splitext fn).1 → fn2 ≠ fn →
      fields4 r2 = fields4 r

/-! ## Theorems -/

/-- Helper: a candidate containing the unknown marker is always judged
invalid by the validator. -/
theorem qmark_invalid (table : List TableRow) (current : Nat) (nn : String)
    (h : pyContains "?" nn = true) : is_name_valid table current nn = false := by
  by_cases h1 : pyStrip nn = ""
  · simp [is_name_valid, h1]
  · simp [is_name_valid, h1, h]

/-- C6: the supporting-documents synthesizer does produce the running
sequence number in the claimed position, but the designated subtype
Обоснование к расчету прочих затрат does not receive the fixed literal
token ТИППРОЧ before the sequence number: the source compares the
looked-up codename with the display string, a comparison that never
holds, so the subtype gets the ordinary format.  The evaluation shows the
produced name and that the token is absent from it. -/
theorem c6_supporting_documents_behavior :
    create_name_for_8_supporting_documents ccOff 0 "f.pdf" "Обоснование к расчету прочих затрат"
        = some ("ПОДТВ-ОбоснованиеПрочих-1-БАЗ", 1)
      ∧ pyContains "ТИППРОЧ" "ПОДТВ-ОбоснованиеПрочих-1-БАЗ" = false
      ∧ (TYPES_8_AND_THEIR_CODENAMSE.lookup "Обоснование к расчету прочих затрат"
           = some "ОбоснованиеПрочих")
      ∧ "ОбоснованиеПрочих" ≠ "Обоснование к расчету прочих затрат" := by
  refine ⟨rfl, by decide, rfl, by decide⟩

/-- C7 counterexample: the candidate consisting of an allowed name
followed by one newline contains a character outside the allowed set,
so the claim judges it invalid, yet the validator accepts it, because the
Python dollar anchor of the character-class pattern also matches before a
final newline. -/
theorem c7_counterexample :
    is_name_valid [{ original := "x", candidate := "x\n" }] 0 "x\n" = true
      ∧ pyContains "\n" "x\n" = true
      ∧ allowedNameChar '\n' = false := by
  refine ⟨rfl, by decide, by decide⟩

/-- C2 counterexample: with content tag смета, the first line yields the
non-empty candidate abc, which the pattern rejects; the scan stops there,
so the second line, which would yield the accepted number 01-02-03 (as
the run on that line alone shows), never supplies the estimate number;
moreover the second component of the result is the raw candidate abc, not
the unknown placeholder embedded in the name. -/
theorem c2_counterexample :
    create_name_for_123_local_object_summary_estimates envNoGrid ccOff c2tags "1" "a.xlsx"
        (.grid ["локальная смета № abc", "смета № 01-02-03"])
        = .ok (some ("ЛС-??-??-??-БАЗ", "abc"))
      ∧ create_name_for_123_local_object_summary_estimates envNoGrid ccOff c2tags "1" "a.xlsx"
        (.grid ["смета № 01-02-03"])
        = .ok (some ("ЛС-01-02-03-БАЗ", "01-02-03"))
      ∧ "abc" ≠ "??-??-??" := by
  refine ⟨rfl, rfl, by decide⟩

/-- C8: the claim that no extraction failure aborts the rest of a
traversal is the documented intent, but the code violates it: for a
spreadsheet classified as an estimate type whose workbook read fails, the
reader recovers by returning no data, yet the name synthesizer then takes
the length of that missing data and raises, aborting the whole traversal,
so the following file receives no record at all. -/
theorem c8_code_bug :
    traverse_directory envNoGrid c1tags cfgOff ["лс.xls", "b.pdf"] 0
        = .error "TypeError: object of type NoneType has no len"
      ∧ envNoGrid.excelRead "лс.xls" = none := by
  exact ⟨rfl, rfl⟩

/-- C5 counterexample: a file whose name matches only the catch-all type
Подтверждающие документы, while its content matches the non-exempt type
Сводный реестр сметной документации.  The claim says the content phase is
still evaluated and assigns the register type; the code skips the content
phase whenever the provisional type is a catch-all, as the comparison of
the full classification with the stand-alone content loop shows. -/
theorem c5_counterexample :
    classify envReestr c5tags cfgOn ["док.xlsx"] "док.xlsx" ".xlsx"
        = ("Подтверждающие документы", "m8", some "4")
      ∧ content_phase_loop envReestr ["док.xlsx"] "док.xlsx" ".xlsx" c5tags "?" "?" none
        = ("Сводный реестр сметной документации", "m4", some "4")
      ∧ "Подтверждающие документы" ≠ "Сводный реестр сметной документации" := by
  refine ⟨rfl, rfl, by decide⟩

/-- C4 counterexample: the file name foo_bar.pdf token-splits to parts
containing both literal tags foo (type Тип А) and bar (type Тип Б); the
claim instantiated at Тип Б demands that classification yield Тип Б, but
the first matching type in catalog order wins, so it yields Тип А. -/
theorem c4_counterexample :
    (classify envEmptyGrid c4tags cfgOff [] "foo_bar.pdf" ".pdf").1 = "Тип А"
      ∧ (classify envEmptyGrid c4tags cfgOn [] "foo_bar.pdf" ".pdf").1 = "Тип А"
      ∧ hasRegexSpecials "bar" = false
      ∧ (fileParts "foo_bar.pdf").contains (pyLower "bar") = true
      ∧ CATCH_ALLS.contains "Тип Б" = false
      ∧ "Тип А" ≠ "Тип Б" := by
  refine ⟨rfl, rfl, by decide, by decide, by decide, by decide⟩

/-- C1 counterexample: a file of extension .docx whose name carries the
literal tag of estimate type 1.  The classifier assigns type id 1, yet no
estimate-style synthesis happens and the proposed base name stays the
unknown sentinel, refuting that estimate-style synthesis happens exactly
when one of the ids 1, 2, 3 was assigned. -/
theorem c1_counterexample :
    processFile envEmptyGrid c1tags cfgOff ["лс.docx"] "лс.docx" none 0
        = .ok ({ type := "Локальный сметный расчет", new_name := "?", mask := "m1",
                 extension := ".docx", estimate_number := "" }, none, 0)
      ∧ (classify envEmptyGrid c1tags cfgOff ["лс.docx"] "лс.docx" ".docx").2.2 = some "1"
      ∧ pyStartsWith "ЛС" "?" = false := by
  refine ⟨rfl, rfl, by decide⟩

/-- C10 counterexample: under the default catalog shipped by the tag
loader, a spreadsheet that neither phase classifies keeps the unknown
type, but its proposed base name does not stay the unknown sentinel: the
stale loop type id 1 triggers estimate-style synthesis and the record
receives the placeholder name ЛС-??-??-??-БАЗ. -/
theorem c10_counterexample :
    processFile envEmptyGrid default_tags cfgOn ["b.xlsx"] "b.xlsx" none 0
        = .ok ({ type := "?", new_name := "ЛС-??-??-??-БАЗ", mask := "?",
                 extension := ".xlsx", estimate_number := "" },
               some (some ("ЛС-??-??-??-БАЗ", "")), 0)
      ∧ "ЛС-??-??-??-БАЗ" ≠ UNKNOWN := by
  refine ⟨rfl, by decide⟩

/-- C9: a completed search run always leaves the supporting-documents
counter at zero (the table population resets it), so every later
traversal of a session starts from zero, and two consecutive completed
runs over the same listing produce identical record tables, sequence
numbers included. -/
theorem c9_counter_reset (env : Env) (tags : TagsData) (cfg : Cfg) (files : List String)
    (c0 : Nat) (out : List (String × FileRecord) × Nat)
    (h : run_search env tags cfg files c0 = .ok out) :
    out.2 = 0 ∧
      ∀ out2 out3, run_search env tags cfg files out.2 = .ok out2 →
        run_search env tags cfg files out2.2 = .ok out3 →
        out2.1 = out3.1 ∧ out2.2 = 0 := by
  have key : ∀ (c : Nat) (o : List (String × FileRecord) × Nat),
      run_search env tags cfg files c = .ok o → o.2 = 0 := by
    intro c o ho
    unfold run_search at ho
    split at ho
    · cases ho
    · cases ho
      rfl
  refine ⟨key c0 out h, ?_⟩
  intro out2 out3 h2 h3
  have e2 : out2.2 = 0 := key _ _ h2
  have e0 : out.2 = 0 := key c0 out h
  rw [e0] at h2
  rw [e2] at h3
  exact ⟨congrArg Prod.fst (Except.ok.inj (h2.symm.trans h3)), e2⟩

/-- Witness for the counter-reset theorem: a concrete completed run
started from the counter value five still ends with the counter at
zero. -/
theorem c9_witness :
    run_search envEmptyGrid default_tags cfgOff ["a.xlsx"] 5
        = .ok ([("a.xlsx", { type := "?", new_name := "ЛС-??-??-??-БАЗ", mask := "?",
                             extension := ".xlsx", estimate_number := "" })], 0)
      ∧ (([("a.xlsx", ({ type := "?", new_name := "ЛС-??-??-??-БАЗ", mask := "?",
                          extension := ".xlsx", estimate_number := "" } : FileRecord))], 0)
           : List (String × FileRecord) × Nat).2 = 0 :=
  ⟨rfl, (c9_counter_reset envEmptyGrid default_tags cfgOff ["a.xlsx"] 5 _ rfl).1⟩

/-- C7 amended: the validator rejects exactly under the claimed reasons,
with two corrections forced by the source: the character-set check is the
anchored Python pattern, which also tolerates one trailing newline after
an otherwise allowed name, and beside a blank extension-stripped base
name the literal base name consisting of a single dot is also rejected. -/
theorem c7_amended (table : List TableRow) (current : Nat) (nn : String)
    (h : current < table.length) :
    is_name_valid table current nn = false ↔
      (pyStrip nn = "" ∨ pyContains "?" nn = true
        ∨ collisionExists table current nn = true
        ∨ charset_match nn = false
        ∨ pyLower (splitext nn).2 ≠ pyLower (splitext (table.get ⟨current, h⟩).original).2
        ∨ pyStrip (splitext nn).1 = "" ∨ (splitext nn).1 = ".") := by
  have hget : table.get? current = some (table.get ⟨current, h⟩) := List.get?_eq_get h
  unfold is_name_valid collisionExists
  rw [hget]
  split_ifs with h1 h2 h3 h4 <;> simp_all
  constructor
  · intro himp
    by_cases hext : pyLower (splitext nn).2 = pyLower (splitext (table.get ⟨current, h⟩).original).2
    · by_cases hbase : pyStrip (splitext nn).1 = ""
      · exact Or.inr (Or.inr (Or.inl hbase))
      · by_cases hdot : (splitext nn).1 = "."
        · exact Or.inr (Or.inr (Or.inr hdot))
        · have hb := himp hext hbase hdot
          exact (hbase (by rw [hb] ; rfl)).elim
    · exact Or.inr (Or.inl hext)
  · rintro (⟨a, b, hab, hane, hcand⟩ | h' | h' | h') <;> intro hext hbase hdot
    · exact (h3 a b hab hane hcand).elim
    · exact (h' hext).elim
    · exact (hbase h').elim
    · exact (hdot h').elim

/-- Witness for the amended validator characterization: a one-row table
whose candidate holds a question mark is judged invalid through the
unknown-marker reason. -/
theorem c7_witness :
    0 < ([({ original := "a.pdf", candidate := "b?.pdf" } : TableRow)] : List TableRow).length
      ∧ is_name_valid [{ original := "a.pdf", candidate := "b?.pdf" }] 0 "b?.pdf" = false :=
  ⟨by decide,
   (c7_amended [{ original := "a.pdf", candidate := "b?.pdf" }] 0 "b?.pdf" (by decide)).mpr
     (Or.inr (Or.inl (by decide)))⟩

/-- Helper: the inner tag loop of the estimate scanner, under compiling
patterns, yields the extracted candidate of the line as soon as any tag
matches, accepted or not, and leaves the candidate untouched otherwise. -/
theorem scan_row_tags_eq (env : Env) (row : String) (accept : String → Bool)
    (tags : List String) (cand : String)
    (hc : ∀ t ∈ tags, env.compileOk t = true) :
    scan_row_tags env row accept tags cand =
      .ok (if tags.any (fun t => env.research t row) then
             (if accept (candExtract row) then (some (candExtract row), candExtract row)
              else (none, candExtract row))
           else (none, cand)) := by
  induction tags generalizing cand with
  | nil => simp [scan_row_tags]
  | cons t ts ih =>
    have hct : env.compileOk t = true := hc t (by simp)
    have hcts : ∀ u ∈ ts, env.compileOk u = true := fun u hu => hc u (by simp [hu])
    cases hr : env.research t row with
    | true =>
      cases ha : accept (candExtract row) with
      | true => simp [scan_row_tags, hct, hr, ha]
      | false =>
        rw [show scan_row_tags env row accept (t :: ts) cand
              = scan_row_tags env row accept ts (candExtract row) from by
            simp [scan_row_tags, hct, hr, ha]]
        rw [ih _ hcts]
        simp [hr, ha]
    | false =>
      rw [show scan_row_tags env row accept (t :: ts) cand
            = scan_row_tags env row accept ts cand from by
          simp [scan_row_tags, hct, hr]]
      rw [ih _ hcts]
      simp [hr]

/-- Helper: under compiling patterns and a pattern rejecting the empty
string, the faithful two-level scanning loop computes exactly the
first-stopping-line semantics of the specification-shaped scanner. -/
theorem estimate_scan_eq (env : Env) (tags : List String) (accept : String → Bool)
    (unknownNumber : String) (lines : List String)
    (hc : ∀ t ∈ tags, env.compileOk t = true) (ha : accept "" = false) :
    estimate_scan env tags accept lines unknownNumber "" =
      .ok (estimate_scan_spec (fun row => tags.any (fun t => env.research t row)) accept
            unknownNumber lines) := by
  induction lines with
  | nil => simp [estimate_scan, estimate_scan_spec]
  | cons row rest ih =>
    simp only [estimate_scan, estimate_scan_spec]
    rw [scan_row_tags_eq env row accept tags "" hc]
    by_cases hhit : tags.any (fun t => env.research t row) = true
    · by_cases hce : candExtract row = ""
      · simp [hhit, hce, ha, ih]
      · by_cases hacc : accept (candExtract row) = true
        · simp [hhit, hce, hacc]
        · simp [hhit, hce, hacc]
    · simp [hhit, ih]

/-- Helper: reduction of the estimate-name synthesizer for type id 1 on
spreadsheet data, once the catalog lookup and the extension test are
fixed. -/
theorem create123_red1 (env : Env) (ccfg : CommentCfg) (tags : TagsData)
    (filename : String) (rows : List String) (td : TypeData)
    (h2 : tags.lookup "1" = some td)
    (hends : (pyEndsWith ".xls" filename || pyEndsWith ".xlsx" filename) = true) :
    create_name_for_123_local_object_summary_estimates env ccfg tags "1" filename (.grid rows)
      = (match estimate_scan env (td.internal_tags.map pyLower)
            (reSearchAnchored (numberCore "1")) (rows.take (min 20 rows.length)) "??-??-??" "" with
         | .error e => .error e
         | .ok (en, c) =>
            .ok (some ("ЛС" ++ "-" ++ en ++ "-" ++ DEFAULT_VERSION ++ DEFAULT_VERSION_NUMBER
                        ++ create_comment ccfg filename, c))) := by
  simp only [create_name_for_123_local_object_summary_estimates, h2, hends, reduceIte]

/-- Helper: the same reduction for type id 2. -/
theorem create123_red2 (env : Env) (ccfg : CommentCfg) (tags : TagsData)
    (filename : String) (rows : List String) (td : TypeData)
    (h2 : tags.lookup "2" = some td)
    (hends : (pyEndsWith ".xls" filename || pyEndsWith ".xlsx" filename) = true) :
    create_name_for_123_local_object_summary_estimates env ccfg tags "2" filename (.grid rows)
      = (match estimate_scan env (td.internal_tags.map pyLower)
            (reSearchAnchored (numberCore "2")) (rows.take (min 20 rows.length)) "??-??" "" with
         | .error e => .error e
         | .ok (en, c) =>
            .ok (some ("ОС" ++ "-" ++ en ++ "-" ++ DEFAULT_VERSION ++ DEFAULT_VERSION_NUMBER
                        ++ create_comment ccfg filename, c))) := by
  simp only [create_name_for_123_local_object_summary_estimates, h2, hends, reduceIte]
  rw [if_neg (by decide : ¬ ("2" : String) = "1")]

/-- Helper: the same reduction for type id 3. -/
theorem create123_red3 (env : Env) (ccfg : CommentCfg) (tags : TagsData)
    (filename : String) (rows : List String) (td : TypeData)
    (h2 : tags.lookup "3" = some td)
    (hends : (pyEndsWith ".xls" filename || pyEndsWith ".xlsx" filename) = true) :
    create_name_for_123_local_object_summary_estimates env ccfg tags "3" filename (.grid rows)
      = (match estimate_scan env (td.internal_tags.map pyLower)
            (reSearchAnchored (numberCore "3")) (rows.take (min 20 rows.length)) "??" "" with
         | .error e => .error e
         | .ok (en, c) =>
            .ok (some ("ССР" ++ "-" ++ en ++ "-" ++ DEFAULT_VERSION ++ DEFAULT_VERSION_NUMBER
                        ++ create_comment ccfg filename, c))) := by
  simp only [create_name_for_123_local_object_summary_estimates, h2, hends, reduceIte]
  rw [if_neg (by decide : ¬ ("3" : String) = "1"), if_neg (by decide : ¬ ("3" : String) = "2")]

/-- C2 amended: on spreadsheet content the estimate scanner reads at most
the first twenty rows and stops at the first row that contains a tag and
yields a non-empty trimmed candidate, whether or not the candidate
matches the type pattern; the placeholder is embedded in the name only
when that stopping candidate is rejected or no row stops the scan, and
the second component of the result is the raw stopping candidate (empty
when no row stops the scan), not the placeholder. -/
theorem c2_amended (env : Env) (ccfg : CommentCfg) (tags : TagsData)
    (type_id filename : String) (rows : List String) (td : TypeData)
    (h1 : type_id = "1" ∨ type_id = "2" ∨ type_id = "3")
    (h2 : tags.lookup type_id = some td)
    (h3 : ∀ t ∈ td.internal_tags, env.compileOk (pyLower t) = true)
    (h4 : pyEndsWith ".xls" filename = true ∨ pyEndsWith ".xlsx" filename = true) :
    create_name_for_123_local_object_summary_estimates env ccfg tags type_id filename
        (.grid rows)
      = (let unknownNumber := if type_id = "1" then "??-??-??"
                              else if type_id = "2" then "??-??" else "??"
         let const := if type_id = "1" then "ЛС" else if type_id = "2" then "ОС" else "ССР"
         let sr := estimate_scan_spec
             (fun row => td.internal_tags.any (fun t => env.research (pyLower t) row))
             (reSearchAnchored (numberCore type_id)) unknownNumber
             (rows.take (min 20 rows.length))
         .ok (some (const ++ "-" ++ sr.1 ++ "-" ++ DEFAULT_VERSION ++ DEFAULT_VERSION_NUMBER
                     ++ create_comment ccfg filename, sr.2))) := by
  have hmap : ∀ t ∈ td.internal_tags.map pyLower, env.compileOk t = true := by
    intro t ht
    rcases List.mem_map.mp ht with ⟨u, hu, rfl⟩
    exact h3 u hu
  have hfun : (fun row => (td.internal_tags.map pyLower).any (fun t => env.research t row))
      = (fun row => td.internal_tags.any (fun t => env.research (pyLower t) row)) := by
    funext row
    rw [List.any_map]
    rfl
  have hends : (pyEndsWith ".xls" filename || pyEndsWith ".xlsx" filename) = true := by
    rcases h4 with h4 | h4 <;> simp [h4]
  rcases h1 with rfl | rfl | rfl
  · rw [create123_red1 env ccfg tags filename rows td h2 hends,
        estimate_scan_eq env (td.internal_tags.map pyLower)
          (reSearchAnchored (numberCore "1")) "??-??-??"
          (rows.take (min 20 rows.length)) hmap (by decide), hfun]
    rfl
  · rw [create123_red2 env ccfg tags filename rows td h2 hends,
        estimate_scan_eq env (td.internal_tags.map pyLower)
          (reSearchAnchored (numberCore "2")) "??-??"
          (rows.take (min 20 rows.length)) hmap (by decide), hfun]
    rfl
  · rw [create123_red3 env ccfg tags filename rows td h2 hends,
        estimate_scan_eq env (td.internal_tags.map pyLower)
          (reSearchAnchored (numberCore "3")) "??"
          (rows.take (min 20 rows.length)) hmap (by decide), hfun]
    rfl

/-- Witness for the amended estimate-scan characterization on a concrete
catalog and row list: the accepted number of the first tagged row is
embedded in the name and returned. -/
theorem c2_witness :
    c2tags.lookup "1"
        = some { type := "Локальный сметный расчет", name_tags := [],
                 internal_tags := ["смета"], mask := "" }
      ∧ create_name_for_123_local_object_summary_estimates envNoGrid ccOff c2tags "1" "a.xlsx"
          (.grid ["смета № 7-8"]) = .ok (some ("ЛС-7-8-БАЗ", "7-8")) := by
  refine ⟨rfl, ?_⟩
  rw [c2_amended envNoGrid ccOff c2tags "1" "a.xlsx" ["смета № 7-8"]
      { type := "Локальный сметный расчет", name_tags := [],
        internal_tags := ["смета"], mask := "" }
      (Or.inl rfl) rfl (fun t ht => rfl) (Or.inr rfl)]
  rfl


/-- Helper: a type none of whose name tags matches leaves the filename
phase state untouched. -/
theorem name_tag_loop_no_match (env : Env) (fn : String) (parts : List String) (td : TypeData)
    (tags : List String) (typ mask : String)
    (h : ∀ tag ∈ tags, name_tag_match env fn parts tag = false) :
    name_tag_loop env fn parts td tags typ mask = (typ, mask, false) := by
  induction tags generalizing typ mask with
  | nil => rfl
  | cons t ts ih =>
    have ht : name_tag_match env fn parts t = false := h t (by simp)
    have hts : ∀ tag ∈ ts, name_tag_match env fn parts tag = false :=
      fun tag htag => h tag (by simp [htag])
    simp only [name_tag_loop, ht, Bool.false_eq_true, reduceIte]
    exact ih _ _ hts

/-- Helper: a catch-all type never sets the found flag in the filename
phase. -/
theorem name_tag_loop_catchall (env : Env) (fn : String) (parts : List String) (td : TypeData)
    (tags : List String) (typ mask : String)
    (h : CATCH_ALLS.contains td.type = true) :
    (name_tag_loop env fn parts td tags typ mask).2.2 = false := by
  induction tags generalizing typ mask with
  | nil => rfl
  | cons t ts ih =>
    cases hm : name_tag_match env fn parts t with
    | false =>
      simp only [name_tag_loop, hm, Bool.false_eq_true, reduceIte]
      exact ih _ _
    | true =>
      simp only [name_tag_loop, hm, h, reduceIte]
      exact ih _ _

/-- Helper: a non-catch-all type one of whose name tags matches wins the
filename phase with its display type and mask. -/
theorem name_tag_loop_found (env : Env) (fn : String) (parts : List String) (td : TypeData)
    (tags : List String) (typ mask : String)
    (hnc : CATCH_ALLS.contains td.type = false)
    (h : ∃ tag ∈ tags, name_tag_match env fn parts tag = true) :
    name_tag_loop env fn parts td tags typ mask = (td.type, td.mask, true) := by
  induction tags generalizing typ mask with
  | nil => simp at h
  | cons t ts ih =>
    cases hm : name_tag_match env fn parts t with
    | true => simp only [name_tag_loop, hm, hnc, Bool.false_eq_true, reduceIte]
    | false =>
      have hts : ∃ tag ∈ ts, name_tag_match env fn parts tag = true := by
        obtain ⟨tag0, htag0, hmt⟩ := h
        rcases List.mem_cons.mp htag0 with rfl | h2
        · rw [hm] at hmt
          cases hmt
        · exact ⟨tag0, h2, hmt⟩
      simp only [name_tag_loop, hm, Bool.false_eq_true, reduceIte]
      exact ih _ _ hts

/-- Helper: the filename phase stops at the first non-catch-all type
with a matching tag, provided no earlier non-catch-all type matches;
earlier catch-all matches are overridden. -/
theorem name_phase_split (env : Env) (fn : String) (parts : List String)
    (pre : List (String × TypeData)) (tpid : String) (td : TypeData)
    (post : List (String × TypeData)) (typ mask : String) (tid0 : Option String)
    (hpre : ∀ q ∈ pre, CATCH_ALLS.contains q.2.type = false →
        ∀ t ∈ q.2.name_tags, name_tag_match env fn parts t = false)
    (hnc : CATCH_ALLS.contains td.type = false)
    (hex : ∃ tag ∈ td.name_tags, name_tag_match env fn parts tag = true) :
    name_phase_loop env fn parts (pre ++ (tpid, td) :: post) typ mask tid0
      = (td.type, td.mask, true, some tpid) := by
  induction pre generalizing typ mask tid0 with
  | nil =>
    simp only [List.nil_append, name_phase_loop]
    rw [name_tag_loop_found env fn parts td td.name_tags typ mask hnc hex]
  | cons q pre2 ih =>
    have hpre2 : ∀ p ∈ pre2, CATCH_ALLS.contains p.2.type = false →
        ∀ t ∈ p.2.name_tags, name_tag_match env fn parts t = false :=
      fun p hp => hpre p (by simp [hp])
    rcases q with ⟨qid, qtd⟩
    simp only [List.cons_append, name_phase_loop]
    cases hca : CATCH_ALLS.contains qtd.type with
    | true =>
      have hb := name_tag_loop_catchall env fn parts qtd qtd.name_tags typ mask hca
      rcases hval : name_tag_loop env fn parts qtd qtd.name_tags typ mask with ⟨a, b, c⟩
      rw [hval] at hb
      simp only at hb
      subst hb
      exact ih _ _ _ hpre2
    | false =>
      rw [name_tag_loop_no_match env fn parts qtd qtd.name_tags typ mask
          (hpre (qid, qtd) (by simp) hca)]
      exact ih _ _ _ hpre2

/-- C4 amended: literal-token classification as claimed, with the
precedence correction forced by the counterexample: the type of the
matching literal tag is assigned provided no non-catch-all type earlier
in catalog order has a matching name tag; the result is independent of
the content-search configuration and of the directory listing. -/
theorem c4_amended (env : Env) (tags : TagsData) (cfg : Cfg) (files : List String)
    (fn ext : String) (pre : List (String × TypeData)) (tpid : String) (td : TypeData)
    (post : List (String × TypeData)) (tag : String)
    (hsplit : tags = pre ++ (tpid, td) :: post)
    (hpre : ∀ q ∈ pre, CATCH_ALLS.contains q.2.type = false →
        ∀ t ∈ q.2.name_tags, name_tag_match env fn (fileParts fn) t = false)
    (htag : tag ∈ td.name_tags)
    (hlit : hasRegexSpecials tag = false)
    (hmem : (fileParts fn).contains (pyLower tag) = true)
    (hnc : CATCH_ALLS.contains td.type = false) :
    (classify env tags cfg files fn ext).1 = td.type := by
  subst hsplit
  have hm : name_tag_match env fn (fileParts fn) tag = true := by
    unfold name_tag_match
    rw [hlit]
    exact hmem
  have hp := name_phase_split env fn (fileParts fn) pre tpid td post UNKNOWN UNKNOWN none
    hpre hnc ⟨tag, htag, hm⟩
  unfold classify namePhase
  rw [hp]
  rfl

/-- Witness for the amended literal-token claim: with a one-type earlier
catalog segment carrying no matching tag, a file carrying the literal tag
of the second catalog type is classified as that type. -/
theorem c4_witness :
    hasRegexSpecials "bar" = false
      ∧ (fileParts "bar.pdf").contains (pyLower "bar") = true
      ∧ CATCH_ALLS.contains "Тип Б" = false
      ∧ (classify envEmptyGrid c4tags cfgOn [] "bar.pdf" ".pdf").1 = "Тип Б" := by
  refine ⟨by decide, by decide, by decide, ?_⟩
  exact c4_amended envEmptyGrid c4tags cfgOn [] "bar.pdf" ".pdf"
    [("21", { type := "Тип А", name_tags := ["foo"], internal_tags := [], mask := "mA" })]
    "22" { type := "Тип Б", name_tags := ["bar"], internal_tags := [], mask := "mB" } [] "bar"
    rfl
    (by
      intro q hq hnca t ht
      obtain rfl := List.mem_singleton.mp hq
      obtain rfl := List.mem_singleton.mp ht
      decide)
    (by decide) (by decide) (by decide) (by decide)

/-- Helper: a content loop over entries without presence leaves type and
mask untouched. -/
theorem content_loop_no_presence (env : Env) (files : List String) (fn ext : String)
    (l : List (String × TypeData)) (typ mask : String) (tid : Option String)
    (h : ∀ q ∈ l, content_presence env files fn ext q.2 = false) :
    (content_phase_loop env files fn ext l typ mask tid).1 = typ
      ∧ (content_phase_loop env files fn ext l typ mask tid).2.1 = mask := by
  induction l generalizing tid with
  | nil => exact ⟨rfl, rfl⟩
  | cons q rest ih =>
    rcases q with ⟨qid, qtd⟩
    have hq : content_presence env files fn ext qtd = false := h (qid, qtd) (by simp)
    have hrest : ∀ p ∈ rest, content_presence env files fn ext p.2 = false :=
      fun p hp => h p (by simp [hp])
    simp only [content_phase_loop, hq, Bool.false_eq_true, reduceIte]
    exact ih _ hrest

/-- Helper: the content loop stops at the first non-catch-all entry with
presence, provided no earlier non-catch-all entry has presence; earlier
catch-all presences only update the threaded state and are overridden. -/
theorem content_loop_split (env : Env) (files : List String) (fn ext : String)
    (pre : List (String × TypeData)) (tpid : String) (td : TypeData)
    (post : List (String × TypeData)) (typ mask : String) (tid : Option String)
    (hpre : ∀ q ∈ pre, CATCH_ALLS.contains q.2.type = false →
        content_presence env files fn ext q.2 = false)
    (hp : content_presence env files fn ext td = true)
    (hnc : CATCH_ALLS.contains td.type = false) :
    content_phase_loop env files fn ext (pre ++ (tpid, td) :: post) typ mask tid
      = (td.type, td.mask, some tpid) := by
  induction pre generalizing typ mask tid with
  | nil => simp only [List.nil_append, content_phase_loop, hp, hnc, Bool.false_eq_true, reduceIte]
  | cons q pre2 ih =>
    have hpre2 : ∀ p ∈ pre2, CATCH_ALLS.contains p.2.type = false →
        content_presence env files fn ext p.2 = false :=
      fun p hpmem => hpre p (by simp [hpmem])
    rcases q with ⟨qid, qtd⟩
    cases hca : CATCH_ALLS.contains qtd.type with
    | true =>
      cases hq : content_presence env files fn ext qtd with
      | true =>
        simp only [List.cons_append, content_phase_loop, hq, hca, reduceIte]
        exact ih _ _ _ hpre2
      | false =>
        simp only [List.cons_append, content_phase_loop, hq, Bool.false_eq_true, reduceIte]
        exact ih _ _ _ hpre2
    | false =>
      have hq : content_presence env files fn ext qtd = false := hpre (qid, qtd) (by simp) hca
      simp only [List.cons_append, content_phase_loop, hq, Bool.false_eq_true, reduceIte]
      exact ih _ _ _ hpre2

/-- C5 amended: the content phase is skipped not only when the filename
phase found a non-exempt match or the mode is off, but also when the
filename phase matched a catch-all category (the correction forced by the
counterexample); it runs exactly when the provisional type is still the
unknown sentinel and the mode is on; its presence test can only succeed
for .pdf (without a spreadsheet sibling in the listing), .xls and .xlsx
files; and within the phase the first non-exempt type with a content
match wins, earlier catch-all matches being overridden. -/
theorem c5_amended :
    (∀ (env : Env) (tags : TagsData) (cfg : Cfg) (files : List String) (fn ext : String),
        (namePhase env tags fn).2.2.1 = true →
        classify env tags cfg files fn ext
          = ((namePhase env tags fn).1, (namePhase env tags fn).2.1,
             (namePhase env tags fn).2.2.2))
  ∧ (∀ (env : Env) (tags : TagsData) (cfg : Cfg) (files : List String) (fn ext : String),
        cfg.searchInFile = false →
        classify env tags cfg files fn ext
          = ((namePhase env tags fn).1, (namePhase env tags fn).2.1,
             (namePhase env tags fn).2.2.2))
  ∧ (∀ (env : Env) (tags : TagsData) (cfg : Cfg) (files : List String) (fn ext : String),
        CATCH_ALLS.contains (namePhase env tags fn).1 = true →
        classify env tags cfg files fn ext
          = ((namePhase env tags fn).1, (namePhase env tags fn).2.1,
             (namePhase env tags fn).2.2.2))
  ∧ (∀ (env : Env) (tags : TagsData) (cfg : Cfg) (files : List String) (fn ext : String),
        (namePhase env tags fn).2.2.1 = false →
        (namePhase env tags fn).1 = UNKNOWN →
        cfg.searchInFile = true →
        classify env tags cfg files fn ext
          = content_phase_loop env files fn ext tags (namePhase env tags fn).1
              (namePhase env tags fn).2.1 (namePhase env tags fn).2.2.2)
  ∧ (∀ (env : Env) (files : List String) (fn ext : String) (td : TypeData),
        ext ≠ ".pdf" → ext ≠ ".xls" → ext ≠ ".xlsx" →
        content_presence env files fn ext td = false)
  ∧ (∀ (env : Env) (files : List String) (fn : String) (td : TypeData),
        (files.contains ((splitext fn).1 ++ ".xls") = true
          ∨ files.contains ((splitext fn).1 ++ ".xlsx") = true) →
        content_presence env files fn ".pdf" td = false)
  ∧ (∀ (env : Env) (files : List String) (fn ext : String)
        (pre : List (String × TypeData)) (tpid : String) (td : TypeData)
        (post : List (String × TypeData)) (typ mask : String) (tid : Option String),
        (∀ q ∈ pre, CATCH_ALLS.contains q.2.type = false →
            content_presence env files fn ext q.2 = false) →
        content_presence env files fn ext td = true →
        CATCH_ALLS.contains td.type = false →
        content_phase_loop env files fn ext (pre ++ (tpid, td) :: post) typ mask tid
          = (td.type, td.mask, some tpid)) := by
  refine ⟨?_, ?_, ?_, ?_, ?_, ?_, ?_⟩
  · intro env tags cfg files fn ext hf
    unfold classify
    rcases hnp : namePhase env tags fn with ⟨typ, mask, found, tid⟩
    rw [hnp] at hf
    simp only at hf
    subst hf
    rfl
  · intro env tags cfg files fn ext hs
    unfold classify
    rcases hnp : namePhase env tags fn with ⟨typ, mask, found, tid⟩
    simp [hs]
  · intro env tags cfg files fn ext hca
    unfold classify
    rcases hnp : namePhase env tags fn with ⟨typ, mask, found, tid⟩
    rw [hnp] at hca
    simp only at hca
    simp only [hca]
    simp [hca]
  · intro env tags cfg files fn ext hf hu hs
    unfold classify
    rcases hnp : namePhase env tags fn with ⟨typ, mask, found, tid⟩
    rw [hnp] at hf hu
    simp only at hf hu
    subst hf
    subst hu
    simp [hs, UNKNOWN, CATCH_ALLS]
  · intro env files fn ext td h1 h2 h3
    unfold content_presence
    simp [h1, h2, h3]
  · intro env files fn td hsib
    unfold content_presence
    rcases hsib with hsib | hsib <;> simp [hsib] <;> intro hn1 hn2
    · exact absurd (List.mem_of_elem_eq_true hsib) hn1
    · exact absurd (List.mem_of_elem_eq_true hsib) hn2
  · intro env files fn ext pre tpid td post typ mask tid hpre hp hnc
    exact content_loop_split env files fn ext pre tpid td post typ mask tid hpre hp hnc

/-- Witness for the amended content-phase characterization: with the
filename phase matching nothing, content search on, and an empty earlier
segment, the register type wins the content phase for a concrete
spreadsheet. -/
theorem c5_witness :
    (namePhase envReestr c5tags "и.xlsx").2.2.1 = false
      ∧ (namePhase envReestr c5tags "и.xlsx").1 = UNKNOWN
      ∧ classify envReestr c5tags cfgOn ["и.xlsx"] "и.xlsx" ".xlsx"
          = content_phase_loop envReestr ["и.xlsx"] "и.xlsx" ".xlsx" c5tags
              (namePhase envReestr c5tags "и.xlsx").1
              (namePhase envReestr c5tags "и.xlsx").2.1
              (namePhase envReestr c5tags "и.xlsx").2.2.2 := by
  refine ⟨by decide, by decide, ?_⟩
  exact (c5_amended).2.2.2.1 envReestr c5tags cfgOn ["и.xlsx"] "и.xlsx" ".xlsx"
    (by decide) (by decide) rfl

/-- Helper: a successful association-list lookup means the key occurs in
the key list. -/
theorem lookup_mem_key (l : List (String × String)) (a b : String)
    (h : l.lookup a = some b) : a ∈ l.map Prod.fst := by
  induction l with
  | nil => simp [List.lookup] at h
  | cons p rest ih =>
    rcases p with ⟨k, v⟩
    cases he : (a == k) with
    | true =>
      have hak : a = k := by simpa using he
      simp [hak]
    | false =>
      have h2 : List.lookup a rest = some b := by
        simpa [List.lookup, he] using h
      simp [ih h2]

/-- Helper: the display dispatch on an other-expenses display type yields
the subtype-codename name and leaves the counter alone. -/
theorem dispatch_name_types7 (ccfg : CommentCfg) (fn nm : String) (ctr : Nat) (typ c : String)
    (h : TYPES_7_AND_THEIR_CODENAMES.lookup typ = some c) :
    dispatch_name ccfg fn typ nm ctr
      = ("ПРОЧ" ++ "-" ++ c ++ "-" ++ DEFAULT_VERSION ++ DEFAULT_VERSION_NUMBER
          ++ create_comment ccfg fn, ctr) := by
  have hk := lookup_mem_key _ _ _ h
  simp only [TYPES_7_AND_THEIR_CODENAMES, List.map_cons, List.map_nil, List.mem_cons,
    List.not_mem_nil, or_false] at hk
  rcases hk with rfl | rfl | rfl | rfl | rfl | rfl | rfl | rfl | rfl | rfl | rfl | rfl
  · have h2 : (some "?" : Option String) = some c := h
    cases Option.some.inj h2
    rfl
  · have h2 : (some "Перевозка" : Option String) = some c := h
    cases Option.some.inj h2
    rfl
  · have h2 : (some "Командировочные" : Option String) = some c := h
    cases Option.some.inj h2
    rfl
  · have h2 : (some "Перебазировка" : Option String) = some c := h
    cases Option.some.inj h2
    rfl
  · have h2 : (some "ОхранаТруда" : Option String) = some c := h
    cases Option.some.inj h2
    rfl
  · have h2 : (some "ПНР" : Option String) = some c := h
    cases Option.some.inj h2
    rfl
  · have h2 : (some "УстройствоДорог" : Option String) = some c := h
    cases Option.some.inj h2
    rfl
  · have h2 : (some "ЗУ" : Option String) = some c := h
    cases Option.some.inj h2
    rfl
  · have h2 : (some "НВОС" : Option String) = some c := h
    cases Option.some.inj h2
    rfl
  · have h2 : (some "Транспортировка" : Option String) = some c := h
    cases Option.some.inj h2
    rfl
  · have h2 : (some "Плавсредства" : Option String) = some c := h
    cases Option.some.inj h2
    rfl
  · have h2 : (some "ПЭМ" : Option String) = some c := h
    cases Option.some.inj h2
    rfl

/-- Helper: the display dispatch on a supporting-documents display type
yields the sequence-numbered name and advances the counter; no codename
equals the display string of the designated subtype, so the token branch
never fires. -/
theorem dispatch_name_types8 (ccfg : CommentCfg) (fn nm : String) (ctr : Nat) (typ c : String)
    (h : TYPES_8_AND_THEIR_CODENAMSE.lookup typ = some c) :
    dispatch_name ccfg fn typ nm ctr
      = ("ПОДТВ" ++ "-" ++ c ++ "-" ++ toString (ctr + 1) ++ "-" ++ DEFAULT_VERSION
          ++ DEFAULT_VERSION_NUMBER ++ create_comment ccfg fn, ctr + 1) := by
  have hk := lookup_mem_key _ _ _ h
  simp only [TYPES_8_AND_THEIR_CODENAMSE, List.map_cons, List.map_nil, List.mem_cons,
    List.not_mem_nil, or_false] at hk
  rcases hk with rfl | rfl | rfl | rfl | rfl | rfl | rfl
  · have h2 : (some "?" : Option String) = some c := h
    cases Option.some.inj h2
    rfl
  · have h2 : (some "ВОР" : Option String) = some c := h
    cases Option.some.inj h2
    rfl
  · have h2 : (some "ДВ" : Option String) = some c := h
    cases Option.some.inj h2
    rfl
  · have h2 : (some "КП" : Option String) = some c := h
    cases Option.some.inj h2
    rfl
  · have h2 : (some "ТС" : Option String) = some c := h
    cases Option.some.inj h2
    rfl
  · have h2 : (some "ОбоснованиеПрочих" : Option String) = some c := h
    cases Option.some.inj h2
    rfl
  · have h2 : (some "КА" : Option String) = some c := h
    cases Option.some.inj h2
    rfl

/-- Helper: when the final loop type id is none of 1, 2, 3, the estimate
branch leaves the base name at the unknown sentinel, the estimate number
empty and the persistent result variable untouched. -/
theorem branch123_not_estimate (env : Env) (ccfg : CommentCfg) (tags : TagsData)
    (files : List String) (fn ext tid : String) (nnr : Option (Option (String × String)))
    (h : tid ≠ "1" ∧ tid ≠ "2" ∧ tid ≠ "3") :
    branch123 env ccfg tags files fn ext (some tid) nnr = .ok (UNKNOWN, "", nnr) := by
  have hc : (tid = "1" || tid = "2" || tid = "3") = false := by
    simp [h.1, h.2.1, h.2.2]
  simp [branch123, hc]

/-- Helper: with an estimate type id but an extension outside the three
handled ones, the branch also leaves everything untouched. -/
theorem branch123_no_ext (env : Env) (ccfg : CommentCfg) (tags : TagsData)
    (files : List String) (fn ext tid : String) (nnr : Option (Option (String × String)))
    (htid : tid = "1" ∨ tid = "2" ∨ tid = "3")
    (h1 : ext ≠ ".pdf") (h2 : ext ≠ ".xls") (h3 : ext ≠ ".xlsx") :
    branch123 env ccfg tags files fn ext (some tid) nnr = .ok (UNKNOWN, "", nnr) := by
  have hc : (tid = "1" || tid = "2" || tid = "3") = true := by
    rcases htid with rfl | rfl | rfl <;> rfl
  simp [branch123, hc, h1, h2, h3]

/-- Helper: on a spreadsheet extension with an estimate type id, the
branch is exactly the synthesizer call, an exception propagating, a
TypeError on a None result, and otherwise the pair with the stored
result. -/
theorem branch123_spreadsheet (env : Env) (ccfg : CommentCfg) (tags : TagsData)
    (files : List String) (fn ext tid : String) (nnr : Option (Option (String × String)))
    (htid : tid = "1" ∨ tid = "2" ∨ tid = "3")
    (hext : ext = ".xls" ∨ ext = ".xlsx") :
    branch123 env ccfg tags files fn ext (some tid) nnr
      = (match create_name_for_123_local_object_summary_estimates env ccfg tags tid fn .none0 with
         | .error e => .error e
         | .ok none => .error "TypeError: NoneType is not subscriptable"
         | .ok (some r) => .ok (r.1, r.2, some (some r))) := by
  have hc : (tid = "1" || tid = "2" || tid = "3") = true := by
    rcases htid with rfl | rfl | rfl <;> rfl
  cases hcr : create_name_for_123_local_object_summary_estimates env ccfg tags tid fn .none0 with
  | error e => rcases hext with rfl | rfl <;> (simp [branch123, hc, hcr] ; rfl)
  | ok v =>
    cases v with
    | none => rcases hext with rfl | rfl <;> (simp [branch123, hc, hcr] ; rfl)
    | some r => rcases hext with rfl | rfl <;> (simp [branch123, hc, hcr] ; rfl)

/-- Helper: on a PDF without a spreadsheet sibling in the listing, the
branch is the same synthesizer call. -/
theorem branch123_pdf_nosib (env : Env) (ccfg : CommentCfg) (tags : TagsData)
    (files : List String) (fn tid : String) (nnr : Option (Option (String × String)))
    (htid : tid = "1" ∨ tid = "2" ∨ tid = "3")
    (h1 : files.contains ((splitext fn).1 ++ ".xls") = false)
    (h2 : files.contains ((splitext fn).1 ++ ".xlsx") = false) :
    branch123 env ccfg tags files fn ".pdf" (some tid) nnr
      = (match create_name_for_123_local_object_summary_estimates env ccfg tags tid fn .none0 with
         | .error e => .error e
         | .ok none => .error "TypeError: NoneType is not subscriptable"
         | .ok (some r) => .ok (r.1, r.2, some (some r))) := by
  have hc : (tid = "1" || tid = "2" || tid = "3") = true := by
    rcases htid with rfl | rfl | rfl <;> rfl
  have h1m : (splitext fn).1 ++ ".xls" ∉ files := by simpa using h1
  have h2m : (splitext fn).1 ++ ".xlsx" ∉ files := by simpa using h2
  cases hcr : create_name_for_123_local_object_summary_estimates env ccfg tags tid fn .none0 with
  | error e => simp [branch123, hc, hcr, h1m, h2m] ; rfl
  | ok v =>
    cases v with
    | none => simp [branch123, hc, hcr, h1m, h2m] ; rfl
    | some r => simp [branch123, hc, hcr, h1m, h2m] ; rfl

/-- Helper: on a PDF with a spreadsheet sibling, the branch reuses the
persistent new_name_result of an earlier file when one is stored. -/
theorem branch123_pdf_sib_stale (env : Env) (ccfg : CommentCfg) (tags : TagsData)
    (files : List String) (fn tid : String) (pr : String × String)
    (htid : tid = "1" ∨ tid = "2" ∨ tid = "3")
    (hsib : files.contains ((splitext fn).1 ++ ".xls") = true
      ∨ files.contains ((splitext fn).1 ++ ".xlsx") = true) :
    branch123 env ccfg tags files fn ".pdf" (some tid) (some (some pr))
      = .ok (pr.1, pr.2, some (some pr)) := by
  have hc : (tid = "1" || tid = "2" || tid = "3") = true := by
    rcases htid with rfl | rfl | rfl <;> rfl
  rcases hsib with hsib | hsib <;>
    · have hm := List.mem_of_elem_eq_true hsib
      simp [branch123, hc, hm]

/-- Helper: on a PDF with a spreadsheet sibling and no stored result, the
branch raises the NameError of the unbound variable. -/
theorem branch123_pdf_sib_unbound (env : Env) (ccfg : CommentCfg) (tags : TagsData)
    (files : List String) (fn tid : String)
    (htid : tid = "1" ∨ tid = "2" ∨ tid = "3")
    (hsib : files.contains ((splitext fn).1 ++ ".xls") = true
      ∨ files.contains ((splitext fn).1 ++ ".xlsx") = true) :
    branch123 env ccfg tags files fn ".pdf" (some tid) none
      = .error "NameError: name new_name_result is not defined" := by
  have hc : (tid = "1" || tid = "2" || tid = "3") = true := by
    rcases htid with rfl | rfl | rfl <;> rfl
  rcases hsib with hsib | hsib <;>
    · have hm := List.mem_of_elem_eq_true hsib
      simp [branch123, hc, hm]

/-- Helper: the record a successful per-file step stores is assembled
from the classification, the estimate branch and the display dispatch. -/
theorem processFile_eq (env : Env) (tags : TagsData) (cfg : Cfg) (files : List String)
    (fn : String) (nnr : Option (Option (String × String))) (ctr : Nat)
    (nm0 est : String) (nnr2 : Option (Option (String × String)))
    (hb : branch123 env cfg.comment tags files fn (pyLower (pathSuffix fn))
        (classify env tags cfg files fn (pyLower (pathSuffix fn))).2.2 nnr
        = .ok (nm0, est, nnr2)) :
    processFile env tags cfg files fn nnr ctr
      = .ok ({ type := (classify env tags cfg files fn (pyLower (pathSuffix fn))).1,
               new_name := (dispatch_name cfg.comment fn
                   (classify env tags cfg files fn (pyLower (pathSuffix fn))).1 nm0 ctr).1,
               mask := (classify env tags cfg files fn (pyLower (pathSuffix fn))).2.1,
               extension := pyLower (pathSuffix fn),
               estimate_number := est }, nnr2,
             (dispatch_name cfg.comment fn
                 (classify env tags cfg files fn (pyLower (pathSuffix fn))).1 nm0 ctr).2) := by
  unfold processFile
  rcases hcl : classify env tags cfg files fn (pyLower (pathSuffix fn)) with ⟨typ, mask, tid⟩
  rw [hcl] at hb
  simp only at hb ⊢
  rw [hb]

/-- C1 amended: which synthesizer runs is keyed partly on the final loop
type id, not the assigned type.  The estimate branch runs exactly when
that id is 1, 2 or 3 and the extension is .pdf (a spreadsheet sibling
deferring to the stored result of an earlier file, or raising when none
is stored), .xls or .xlsx; outside those conditions the base name stays
the unknown sentinel.  Fixed-template and family synthesis are keyed on
the classified display type as claimed, overwriting any estimate-branch
name; a display type outside every dispatch table leaves the
estimate-branch name (hence the unknown sentinel for an unclassified
file whose final loop id is not 1, 2, 3). -/
theorem c1_amended :
    (∀ (env : Env) (ccfg : CommentCfg) (tags : TagsData) (files : List String)
        (fn ext tid : String) (nnr : Option (Option (String × String))),
        tid ≠ "1" ∧ tid ≠ "2" ∧ tid ≠ "3" →
        branch123 env ccfg tags files fn ext (some tid) nnr = .ok (UNKNOWN, "", nnr))
  ∧ (∀ (env : Env) (ccfg : CommentCfg) (tags : TagsData) (files : List String)
        (fn ext tid : String) (nnr : Option (Option (String × String))),
        (tid = "1" ∨ tid = "2" ∨ tid = "3") →
        ext ≠ ".pdf" → ext ≠ ".xls" → ext ≠ ".xlsx" →
        branch123 env ccfg tags files fn ext (some tid) nnr = .ok (UNKNOWN, "", nnr))
  ∧ (∀ (env : Env) (ccfg : CommentCfg) (tags : TagsData) (files : List String)
        (fn ext tid : String) (nnr : Option (Option (String × String))),
        (tid = "1" ∨ tid = "2" ∨ tid = "3") → (ext = ".xls" ∨ ext = ".xlsx") →
        branch123 env ccfg tags files fn ext (some tid) nnr
          = (match create_name_for_123_local_object_summary_estimates env ccfg tags tid fn
                .none0 with
             | .error e => .error e
             | .ok none => .error "TypeError: NoneType is not subscriptable"
             | .ok (some r) => .ok (r.1, r.2, some (some r))))
  ∧ (∀ (env : Env) (ccfg : CommentCfg) (tags : TagsData) (files : List String)
        (fn tid : String) (pr : String × String),
        (tid = "1" ∨ tid = "2" ∨ tid = "3") →
        (files.contains ((splitext fn).1 ++ ".xls") = true
          ∨ files.contains ((splitext fn).1 ++ ".xlsx") = true) →
        branch123 env ccfg tags files fn ".pdf" (some tid) (some (some pr))
          = .ok (pr.1, pr.2, some (some pr)))
  ∧ (∀ (ccfg : CommentCfg) (fn nm : String) (ctr : Nat),
        dispatch_name ccfg fn UNKNOWN nm ctr = (nm, ctr))
  ∧ (∀ (ccfg : CommentCfg) (fn nm : String) (ctr : Nat),
        dispatch_name ccfg fn "Сводный реестр сметной документации" nm ctr
          = (create_name_for_4_register_of_estimates ccfg fn, ctr))
  ∧ (∀ (ccfg : CommentCfg) (fn nm : String) (ctr : Nat),
        dispatch_name ccfg fn "Сметные расчеты на отдельные виды затрат" nm ctr
          = (create_name_for_5_specific_types_of_costs ccfg fn, ctr))
  ∧ (∀ (ccfg : CommentCfg) (fn nm : String) (ctr : Nat),
        dispatch_name ccfg fn
            "Сравнительная таблица изменения стоимости МТР по договору подряда (Форма 1.3)"
            nm ctr
          = (create_name_for_6_MTR_cost_change_table ccfg fn, ctr))
  ∧ (∀ (ccfg : CommentCfg) (fn nm : String) (ctr : Nat) (typ c : String),
        TYPES_7_AND_THEIR_CODENAMES.lookup typ = some c →
        dispatch_name ccfg fn typ nm ctr
          = ("ПРОЧ" ++ "-" ++ c ++ "-" ++ DEFAULT_VERSION ++ DEFAULT_VERSION_NUMBER
              ++ create_comment ccfg fn, ctr))
  ∧ (∀ (ccfg : CommentCfg) (fn nm : String) (ctr : Nat) (typ c : String),
        TYPES_8_AND_THEIR_CODENAMSE.lookup typ = some c →
        dispatch_name ccfg fn typ nm ctr
          = ("ПОДТВ" ++ "-" ++ c ++ "-" ++ toString (ctr + 1) ++ "-" ++ DEFAULT_VERSION
              ++ DEFAULT_VERSION_NUMBER ++ create_comment ccfg fn, ctr + 1)) := by
  refine ⟨?_, ?_, ?_, ?_, ?_, ?_, ?_, ?_, ?_, ?_⟩
  · intro env ccfg tags files fn ext tid nnr h
    exact branch123_not_estimate env ccfg tags files fn ext tid nnr h
  · intro env ccfg tags files fn ext tid nnr htid h1 h2 h3
    exact branch123_no_ext env ccfg tags files fn ext tid nnr htid h1 h2 h3
  · intro env ccfg tags files fn ext tid nnr htid hext
    exact branch123_spreadsheet env ccfg tags files fn ext tid nnr htid hext
  · intro env ccfg tags files fn tid pr htid hsib
    exact branch123_pdf_sib_stale env ccfg tags files fn tid pr htid hsib
  · intro ccfg fn nm ctr
    rfl
  · intro ccfg fn nm ctr
    rfl
  · intro ccfg fn nm ctr
    rfl
  · intro ccfg fn nm ctr
    rfl
  · intro ccfg fn nm ctr typ c h
    exact dispatch_name_types7 ccfg fn nm ctr typ c h
  · intro ccfg fn nm ctr typ c h
    exact dispatch_name_types8 ccfg fn nm ctr typ c h

/-- Witness for the amended synthesis-dispatch claim: a file with the
stale loop id 21 and a known display type of the other-expenses family
receives the family name. -/
theorem c1_witness :
    ("21" ≠ "1" ∧ "21" ≠ "2" ∧ "21" ≠ "3")
      ∧ branch123 envEmptyGrid ccOff c4tags [] "а.xlsx" ".xlsx" (some "21") none
          = .ok (UNKNOWN, "", none)
      ∧ TYPES_7_AND_THEIR_CODENAMES.lookup "Перевозка" = some "Перевозка"
      ∧ dispatch_name ccOff "а.xlsx" "Перевозка" "?" 0
          = ("ПРОЧ" ++ "-" ++ "Перевозка" ++ "-" ++ DEFAULT_VERSION ++ DEFAULT_VERSION_NUMBER
              ++ create_comment ccOff "а.xlsx", 0) :=
  ⟨by decide,
   (c1_amended).1 envEmptyGrid ccOff c4tags [] "а.xlsx" ".xlsx" "21" none (by decide),
   rfl,
   (c1_amended).2.2.2.2.2.2.2.2.1 ccOff "а.xlsx" "?" 0 "Перевозка" "Перевозка" rfl⟩

/-- C10 amended: an unclassified file keeps the unknown sentinel as its
proposed name whenever the final loop type id is not 1, 2 or 3 (with the
default single-type catalog that id is the stale 1, so the sentinel is
replaced by a placeholder name); any candidate containing the
unknown marker is judged invalid by the validator; and the batch
operation never renames or copies a row under a marker-containing
candidate: a checked row fails validation and counts as an error, an
unchecked row is skipped or handled under its original name. -/
theorem c10_amended :
    (∀ (env : Env) (tags : TagsData) (cfg : Cfg) (files : List String) (fn : String)
        (nnr : Option (Option (String × String))) (ctr : Nat)
        (rec : FileRecord) (nnr2 : Option (Option (String × String))) (ctr2 : Nat),
        processFile env tags cfg files fn nnr ctr = .ok (rec, nnr2, ctr2) →
        rec.type = UNKNOWN →
        (∀ tid, (classify env tags cfg files fn (pyLower (pathSuffix fn))).2.2 = some tid →
            tid ≠ "1" ∧ tid ≠ "2" ∧ tid ≠ "3") →
        rec.new_name = UNKNOWN)
  ∧ (∀ (table : List TableRow) (current : Nat) (nn : String),
        pyContains "?" nn = true → is_name_valid table current nn = false)
  ∧ (∀ (cu : Bool) (table : List TableRow) (row : Nat) (checked : Bool) (rd : TableRow),
        table.get? row = some rd → pyContains "?" rd.candidate = true →
        rename_files_row cu table row checked ≠ .opOn rd.candidate) := by
  refine ⟨?_, ?_, ?_⟩
  · intro env tags cfg files fn nnr ctr rec nnr2 ctr2 hok htype htid
    unfold processFile at hok
    rcases hcl : classify env tags cfg files fn (pyLower (pathSuffix fn)) with ⟨typ, mask, tid⟩
    rw [hcl] at hok
    simp only at hok
    cases tid with
    | none => simp [branch123] at hok
    | some t =>
      have hne := htid t (by rw [hcl])
      rw [branch123_not_estimate env cfg.comment tags files fn (pyLower (pathSuffix fn))
          t nnr hne] at hok
      simp only [Except.ok.injEq, Prod.mk.injEq] at hok
      rcases hok with ⟨hrec, h2, h3⟩
      subst hrec
      simp only at htype
      subst htype
      rfl
  · intro table current nn h
    exact qmark_invalid table current nn h
  · intro cu table row checked rd hget hq
    unfold rename_files_row
    cases checked with
    | false =>
      cases cu with
      | false => simp
      | true =>
        rw [hget]
        simp only [Bool.not_false, Bool.and_true, Bool.not_true, Bool.false_and,
          Bool.and_false, Bool.false_eq_true, reduceIte]
        by_cases hv : is_name_valid table row rd.original = true
        · simp only [hv, Bool.not_true, Bool.false_eq_true, reduceIte]
          intro hc
          have hname : rd.original = rd.candidate := by
            injection hc
          rw [hname] at hv
          rw [qmark_invalid table row rd.candidate hq] at hv
          cases hv
        · have hv2 : is_name_valid table row rd.original = false := by simpa using hv
          simp [hv2]
    | true =>
      rw [hget]
      have hv := qmark_invalid table row rd.candidate hq
      simp [hv]

/-- Witness for the amended unknown-sentinel claim: the concrete
two-type catalog with stale final id 22 leaves an unmatched text file
with both sentinels, and a checked marker row errors out. -/
theorem c10_witness :
    processFile envEmptyGrid c4tags cfgOff ["я.txt"] "я.txt" none 0
        = .ok ({ type := "?", new_name := "?", mask := "?", extension := ".txt",
                 estimate_number := "" }, none, 0)
      ∧ rename_files_row false [{ original := "a.pdf", candidate := "b?.pdf" }] 0 true
          ≠ .opOn "b?.pdf" :=
  ⟨rfl,
   (c10_amended).2.2 false [{ original := "a.pdf", candidate := "b?.pdf" }] 0 true
     { original := "a.pdf", candidate := "b?.pdf" } rfl (by decide)⟩

/-- Helper: duplicate propagation from one record keeps the key list. -/
theorem propagate_map_fst (fn : String) (src : FileRecord) (recs : List (String × FileRecord)) :
    (propagate_from fn src recs).map Prod.fst = recs.map Prod.fst := by
  induction recs with
  | nil => rfl
  | cons p rest ih =>
    simp [propagate_from] at ih ⊢

/-- Helper: membership in a propagation pass, element-wise. -/
theorem mem_propagate (fn : String) (src : FileRecord) (recs : List (String × FileRecord))
    (q : String × FileRecord) :
    q ∈ propagate_from fn src recs ↔
      ∃ p, p ∈ recs ∧ q = (p.1, if (splitext p.1).1 = (splitext fn).1 ∧ p.1 ≠ fn
          then copy_from src p.2 else p.2) := by
  unfold propagate_from
  rw [List.mem_map]
  constructor
  · rintro ⟨p, hp, heq⟩
    exact ⟨p, hp, heq.symm⟩
  · rintro ⟨p, hp, heq⟩
    exact ⟨p, hp, heq.symm⟩

/-- Helper: with no duplicate keys, the record stored under a key is
unique. -/
theorem nodup_key_uniq (recs : List (String × FileRecord))
    (h : (recs.map Prod.fst).Nodup) (fn : String) (r r2 : FileRecord)
    (h1 : (fn, r) ∈ recs) (h2 : (fn, r2) ∈ recs) : r = r2 := by
  induction recs with
  | nil => cases h1
  | cons p rest ih =>
    rw [List.map_cons] at h
    have hh := List.nodup_cons.mp h
    rcases List.mem_cons.mp h1 with he1 | he1 <;> rcases List.mem_cons.mp h2 with he2 | he2
    · exact congrArg Prod.snd (he1.trans he2.symm)
    · exfalso
      have hm : fn ∈ rest.map Prod.fst := List.mem_map_of_mem Prod.fst he2
      have hpf : p.1 = fn := by rw [← he1]
      rw [hpf] at hh
      exact hh.1 hm
    · exfalso
      have hm : fn ∈ rest.map Prod.fst := List.mem_map_of_mem Prod.fst he1
      have hpf : p.1 = fn := by rw [← he2]
      rw [hpf] at hh
      exact hh.1 hm
    · exact ih hh.2 he1 he2

/-- Helper: after propagating from a stored spreadsheet record, its key
is done: every same-stem record under another name carries its four
fields. -/
theorem doneAt_self (recs : List (String × FileRecord))
    (hnd : (recs.map Prod.fst).Nodup) (fn : String) (r : FileRecord)
    (hmem : (fn, r) ∈ recs) : DoneAt (propagate_from fn r recs) fn := by
  intro r2 hr2 hext fn2 r3 hr3 hstem hne
  rcases (mem_propagate fn r recs _).mp hr2 with ⟨p, hp, heqp⟩
  injection heqp with e1 e2
  have hcondp : ¬ ((splitext p.1).1 = (splitext fn).1 ∧ p.1 ≠ fn) := by
    intro hc
    exact hc.2 e1.symm
  rw [if_neg hcondp] at e2
  have hpr : p.2 = r := by
    apply nodup_key_uniq recs hnd fn p.2 r
    · rw [e1]
      exact hp
    · exact hmem
  rcases (mem_propagate fn r recs _).mp hr3 with ⟨q, hq, heqq⟩
  injection heqq with f1 f2
  have hcondq : (splitext q.1).1 = (splitext fn).1 ∧ q.1 ≠ fn := by
    constructor
    · rw [← f1]
      exact hstem
    · rw [← f1]
      exact hne
  rw [if_pos hcondq] at f2
  rw [e2, hpr, f2]
  rfl

/-- Helper: propagating from one stored spreadsheet record preserves
doneness of every other key. -/
theorem doneAt_preserve (recs : List (String × FileRecord))
    (hnd : (recs.map Prod.fst).Nodup) (j fn : String) (r : FileRecord)
    (hmem : (fn, r) ∈ recs) (hne : j ≠ fn) (hD : DoneAt recs j) :
    DoneAt (propagate_from fn r recs) j := by
  intro rj hj hext fn2 r2 h2 hstem hne2
  rcases (mem_propagate fn r recs _).mp hj with ⟨p, hp, heqp⟩
  injection heqp with e1 e2
  rcases (mem_propagate fn r recs _).mp h2 with ⟨q, hq, heqq⟩
  injection heqq with f1 f2
  by_cases hsj : (splitext j).1 = (splitext fn).1
  · have hcondp : (splitext p.1).1 = (splitext fn).1 ∧ p.1 ≠ fn := by
      constructor
      · rw [← e1]
        exact hsj
      · rw [← e1]
        exact hne
    rw [if_pos hcondp] at e2
    by_cases hq1 : fn2 = fn
    · have hqf : q.1 = fn := by
        rw [← f1]
        exact hq1
      have hcondq : ¬ ((splitext q.1).1 = (splitext fn).1 ∧ q.1 ≠ fn) := by
        intro hc
        exact hc.2 hqf
      rw [if_neg hcondq] at f2
      have hqmem : (fn, q.2) ∈ recs := by
        rw [← hqf]
        simpa using hq
      have hqr : q.2 = r := nodup_key_uniq recs hnd fn q.2 r hqmem hmem
      rw [e2, f2, hqr]
      rfl
    · have hcondq : (splitext q.1).1 = (splitext fn).1 ∧ q.1 ≠ fn := by
        refine ⟨?_, ?_⟩
        · rw [← f1]
          rw [hstem, hsj]
        · rw [← f1]
          exact hq1
      rw [if_pos hcondq] at f2
      rw [e2, f2]
      rfl
  · have hcondp : ¬ ((splitext p.1).1 = (splitext fn).1 ∧ p.1 ≠ fn) := by
      intro hc
      apply hsj
      rw [e1]
      exact hc.1
    rw [if_neg hcondp] at e2
    have hcondq : ¬ ((splitext q.1).1 = (splitext fn).1 ∧ q.1 ≠ fn) := by
      intro hc
      apply hsj
      rw [← hstem, f1]
      exact hc.1
    rw [if_neg hcondq] at f2
    have hjmem : (j, p.2) ∈ recs := by
      rw [e1]
      simpa using hp
    have hfm : (fn2, q.2) ∈ recs := by
      rw [f1]
      simpa using hq
    have hext2 : SPREAD_EXTS.contains p.2.extension = true := by
      rw [e2] at hext
      exact hext
    have hfin := hD p.2 hjmem hext2 fn2 q.2 hfm hstem hne2
    rw [e2, f2]
    exact hfin

/-- Helper: the propagation loop keeps the key list. -/
theorem share_loop_map_fst : ∀ (keys : List String) (recs : List (String × FileRecord)),
    (share_loop keys recs).map Prod.fst = recs.map Prod.fst := by
  intro keys
  induction keys with
  | nil =>
    intro recs
    rfl
  | cons k rest ih =>
    intro recs
    unfold share_loop
    cases hf : recs.find? (fun p => p.1 = k) with
    | none => exact ih recs
    | some p =>
      show (if SPREAD_EXTS.contains p.2.extension = true then
          share_loop rest (propagate_from k p.2 recs) else share_loop rest recs).map Prod.fst
        = recs.map Prod.fst
      by_cases hsp : SPREAD_EXTS.contains p.2.extension = true
      · rw [if_pos hsp, ih (propagate_from k p.2 recs), propagate_map_fst]
      · rw [if_neg hsp]
        exact ih recs

/-- Helper: the propagation loop establishes doneness for every stored
key, given doneness of the keys already consumed. -/
theorem share_loop_done : ∀ (keys : List String) (recs : List (String × FileRecord)),
    (recs.map Prod.fst).Nodup →
    (∀ fn, fn ∈ recs.map Prod.fst → fn ∉ keys → DoneAt recs fn) →
    ∀ fn, fn ∈ (share_loop keys recs).map Prod.fst →
      DoneAt (share_loop keys recs) fn := by
  intro keys
  induction keys with
  | nil =>
    intro recs hnd hpre fn hfn
    exact hpre fn hfn (by simp)
  | cons k rest ih =>
    intro recs hnd hpre fn hfn
    unfold share_loop at hfn ⊢
    cases hf : recs.find? (fun p => p.1 = k) with
    | none =>
      rw [hf] at hfn
      refine ih recs hnd ?_ fn hfn
      intro fn2 hf2 hnr
      by_cases he : fn2 = k
      · exfalso
        subst he
        rcases List.mem_map.mp hf2 with ⟨p, hp, hp1⟩
        have hfa := List.find?_eq_none.mp hf p hp
        simp [hp1] at hfa
      · exact hpre fn2 hf2 (by simp [he, hnr])
    | some p =>
      rcases p with ⟨p1, pr⟩
      have hp1 : p1 = k := by
        have hps := List.find?_some hf
        simpa using hps
      subst hp1
      have hpmem : (p1, pr) ∈ recs := List.mem_of_find?_eq_some hf
      rw [hf] at hfn
      have hfn2 : fn ∈ (if SPREAD_EXTS.contains pr.extension = true then
          share_loop rest (propagate_from p1 pr recs) else share_loop rest recs).map Prod.fst :=
        hfn
      show DoneAt (if SPREAD_EXTS.contains pr.extension = true then
          share_loop rest (propagate_from p1 pr recs) else share_loop rest recs) fn
      clear hfn
      by_cases hsp : SPREAD_EXTS.contains pr.extension = true
      · rw [if_pos hsp] at hfn2 ⊢
        have hgoal : ∀ fn0, fn0 ∈ (share_loop rest (propagate_from p1 pr recs)).map Prod.fst →
            DoneAt (share_loop rest (propagate_from p1 pr recs)) fn0 := by
          refine ih (propagate_from p1 pr recs) ?_ ?_
          · rw [propagate_map_fst]
            exact hnd
          · intro fn2 hf2 hnr
            rw [propagate_map_fst] at hf2
            by_cases he : fn2 = p1
            · subst he
              exact doneAt_self recs hnd fn2 pr hpmem
            · exact doneAt_preserve recs hnd fn2 p1 pr hpmem he
                (hpre fn2 hf2 (by simp [he, hnr]))
        exact hgoal fn hfn2
      · rw [if_neg hsp] at hfn2 ⊢
        have hspf : SPREAD_EXTS.contains pr.extension = false := by simpa using hsp
        refine ih recs hnd ?_ fn hfn2
        intro fn2 hf2 hnr
        by_cases he : fn2 = p1
        · subst he
          intro r hr hext fn3 r3 h3 hstem hne3
          exfalso
          have hrp : r = pr := nodup_key_uniq recs hnd fn2 r pr hr hpmem
          rw [hrp] at hext
          rw [hext] at hspf
          cases hspf
        · exact hpre fn2 hf2 (by simp [he, hnr])

/-- C3: after duplicate propagation, every record sharing a stem with a
spreadsheet record under a different extension carries the spreadsheet
record its type, proposed name, mask and estimate number; in particular
every spreadsheet and PDF pair sharing a stem ends identical on those
four fields. -/
theorem c3_propagation (recs : List (String × FileRecord))
    (hnd : (recs.map Prod.fst).Nodup) :
    ∀ p ∈ share_info_from_xls_to_duplicates recs,
      SPREAD_EXTS.contains p.2.extension = true →
      ∀ q ∈ share_info_from_xls_to_duplicates recs,
        (splitext q.1).1 = (splitext p.1).1 →
        (splitext q.1).2 ≠ (splitext p.1).2 →
        fields4 q.2 = fields4 p.2 := by
  intro p hp hext q hq hstem hexts
  have hne : q.1 ≠ p.1 := by
    intro he
    exact hexts (by rw [he])
  have hdone := share_loop_done (recs.map Prod.fst) recs hnd
    (fun fn hfn hnot => absurd hfn hnot) p.1
    (List.mem_map_of_mem Prod.fst hp)
  have hp2 : (p.1, p.2) ∈ share_info_from_xls_to_duplicates recs := by
    simpa using hp
  have hq2 : (q.1, q.2) ∈ share_info_from_xls_to_duplicates recs := by
    simpa using hq
  exact hdone p.2 hp2 hext q.1 q.2 hq2 hstem hne

/-- Witness for the propagation theorem: a two-record table with a
spreadsheet and a PDF sharing the stem.  The PDF record ends with the
spreadsheet values. -/
theorem c3_witness :
    (([("a.pdf", rB), ("a.xls", rA)] : List (String × FileRecord)).map Prod.fst).Nodup
      ∧ fields4 (copy_from rA rB) = fields4 rA :=
  ⟨by decide,
   c3_propagation [("a.pdf", rB), ("a.xls", rA)] (by decide)
     ("a.xls", rA) (by decide) (by decide)
     ("a.pdf", copy_from rA rB) (by decide) (by decide) (by decide)⟩

end PEDSorter
